import Mathlib

/-!
Verification of the cmi5 course example's telemetry engine
(src/js/cmi5-wrapper.js and src/js/xapi-tracker.js) against its
natural-language specification. The two JS modules are shallowly embedded:
module-level mutable state becomes explicit state records, async functions
become state-passing functions whose network calls are resolved by oracles,
and the overlapping-flush behaviour of `processBatch` is modelled as a small
labelled transition system over coroutine configurations.
-/

namespace XapiTracker

/-- Character-list prefix test, used to implement the JS
`String.prototype.includes` checks of xapi-tracker.js. -/
def leadsWith : List Char → List Char → Bool
  | [], _ => true
  | _ :: _, [] => false
  | a :: as, b :: bs => a == b && leadsWith as bs

/-- `hasSub needle hay = hay.includes(needle)` on character lists. -/
def hasSub (needle : List Char) : List Char → Bool
  | [] => needle.isEmpty
  | c :: rest => leadsWith needle (c :: rest) || hasSub needle rest

/-- xapi-tracker.js line 1549:
`errorMsg.includes('session not found') || errorMsg.includes('401')` —
does a per-statement delivery error message signal server-side session
invalidation? -/
def isSessionInvalidMsg (m : String) : Bool :=
  hasSub "session not found".toList m.toList || hasSub "401".toList m.toList

/-- Queued statements are treated as opaque payloads by the queue logic, so
they are modelled as plain naturals; delivery outcomes are resolved by a
per-flush oracle rather than by payload inspection. -/
abbrev Stmt := Nat

/-- The module-level mutable state of xapi-tracker.js that the queue logic
reads and writes: `statementQueue` (line 46) and `sessionEnded`
(line 1436). `batchInProgress`/`batchPromise` only matter for overlapping
calls and live in the concurrent model below. -/
structure TrackerState where
  statementQueue : List Stmt
  sessionEnded : Bool
deriving Repr, DecidableEq

/-- xapi-tracker.js line 11: `const SEND_TO_LRS = true`. -/
def SEND_TO_LRS : Bool := true

/-- xapi-tracker.js `sendStatement` (lines 1438-1469) as a state transition.
`cmi5Terminated` is the value of `Cmi5.isTerminated()` at call time. The
function drops the statement when `sessionEnded`, halts (and clears the
queue) when the wrapper reports terminated, and otherwise pushes the
statement onto the queue. -/
def trackerSendStatement (cmi5Terminated : Bool) (stmt : Stmt)
    (s : TrackerState) : TrackerState :=
  if s.sessionEnded then s
  else if cmi5Terminated then { s with sessionEnded := true, statementQueue := [] }
  else { s with statementQueue := s.statementQueue ++ [stmt] }

/-- The per-statement delivery loop of `processBatch` (xapi-tracker.js lines
1534-1565). `deliver i` resolves the i-th `Cmi5.sendStatement` call of this
flush: `none` means delivered, `some msg` means it threw with message
`msg`. On a session-invalid message the loop sets `sessionEnded`, clears
the queue and stops; on any other error it re-inserts the failed statement
together with every unsent statement at the front of the queue and stops.
Returns the post-state and the list of statements handed to the transport,
in order. -/
def runBatchLoop (deliver : Nat → Option String) :
    Nat → List Stmt → TrackerState → TrackerState × List Stmt
  | _, [], s => (s, [])
  | i, stmt :: rest, s =>
    match deliver i with
    | none =>
      let r := runBatchLoop deliver (i + 1) rest s
      (r.1, stmt :: r.2)
    | some msg =>
      if isSessionInvalidMsg msg then
        ({ s with sessionEnded := true, statementQueue := [] }, [stmt])
      else if s.sessionEnded then
        (s, [stmt])
      else
        ({ s with statementQueue := stmt :: (rest ++ s.statementQueue) }, [stmt])

/-- xapi-tracker.js `processBatch` (lines 1502-1589) for a call made while no
other flush is in flight (`batchInProgress = false` on entry; overlapping
calls are modelled by the transition system below). `connected` and
`terminated` are `Cmi5.isConnected()` / `Cmi5.isTerminated()`. Returns the
post-state and the transport calls made. -/
def processBatch (connected terminated : Bool) (deliver : Nat → Option String)
    (s : TrackerState) : TrackerState × List Stmt :=
  if s.sessionEnded then ({ s with statementQueue := [] }, [])
  else if s.statementQueue.isEmpty then (s, [])
  else if !SEND_TO_LRS then ({ s with statementQueue := [] }, [])
  else if connected && !terminated then
    runBatchLoop deliver 0 s.statementQueue { s with statementQueue := [] }
  else if terminated then
    ({ s with sessionEnded := true, statementQueue := [] }, [])
  else if s.statementQueue.length > 100 then
    ({ s with statementQueue :=
        s.statementQueue.drop (s.statementQueue.length - 100) }, [])
  else (s, [])

/-- One externally triggered tracker action: a producer `sendStatement` call
or a (non-overlapping) `processBatch` flush. -/
inductive TrackerOp where
  | send (cmi5Terminated : Bool) (stmt : Stmt)
  | batch (connected terminated : Bool) (deliver : Nat → Option String)

/-- Apply one tracker action; the second component lists transport calls. -/
def applyOp : TrackerOp → TrackerState → TrackerState × List Stmt
  | .send t stmt, s => (trackerSendStatement t stmt s, [])
  | .batch c t deliver, s => processBatch c t deliver s

/-- Run a sequence of tracker actions, accumulating all transport calls. -/
def runOps : List TrackerOp → TrackerState → TrackerState × List Stmt
  | [], s => (s, [])
  | op :: ops, s =>
    let r := applyOp op s
    let r2 := runOps ops r.1
    (r2.1, r.2 ++ r2.2)

/-- The halted configuration: the session is marked ended and the statement
queue has been discarded. -/
def Halted (s : TrackerState) : Prop :=
  s.sessionEnded = true ∧ s.statementQueue = []

theorem halted_applyOp (op : TrackerOp) (s : TrackerState) (h : Halted s) :
    applyOp op s = (s, []) := by
  obtain ⟨h1, h2⟩ := h
  cases s
  cases op <;>
    simp_all [applyOp, trackerSendStatement, processBatch]

theorem halted_runOps (ops : List TrackerOp) (s : TrackerState) (h : Halted s) :
    runOps ops s = (s, []) := by
  induction ops with
  | nil => rfl
  | cons op ops ih => simp [runOps, halted_applyOp op s h, ih]

/-- Behaviour of the delivery loop when the first `i` sends succeed and the
(i+1)-st fails with message `m`: the loop makes exactly `i + 1` transport
calls (for the first `i + 1` statements of the batch, in order); on a
session-invalid message it halts, otherwise it re-inserts the failed
statement and everything after it, in order, at the front of the queue. -/
theorem runBatchLoop_firstFailure (deliver : Nat → Option String) (m : String) :
    ∀ (q : List Stmt) (i k : Nat) (s : TrackerState),
      i < q.length →
      (∀ j, j < i → deliver (k + j) = none) →
      deliver (k + i) = some m →
      runBatchLoop deliver k q s =
        (if isSessionInvalidMsg m then
            { s with sessionEnded := true, statementQueue := [] }
          else if s.sessionEnded then s
          else { s with statementQueue := q.drop i ++ s.statementQueue },
          q.take (i + 1)) := by
  intro q
  induction q with
  | nil => intro i k s hi; exact absurd hi (by simp)
  | cons a q ih =>
    intro i k s hi hok hfail
    match i with
    | 0 =>
      simp only [Nat.add_zero] at hfail
      simp only [runBatchLoop, hfail]
      split_ifs <;> simp
    | Nat.succ n =>
      have h0 : deliver k = none := by
        have := hok 0 (Nat.succ_pos n)
        simpa using this
      have hok' : ∀ j, j < n → deliver (k + 1 + j) = none := by
        intro j hj
        have := hok (j + 1) (Nat.succ_lt_succ hj)
        simpa [Nat.add_comm, Nat.add_assoc, Nat.add_left_comm] using this
      have hfail' : deliver (k + 1 + n) = some m := by
        simpa [Nat.add_comm, Nat.add_assoc, Nat.add_left_comm] using hfail
      have hn : n < q.length := Nat.lt_of_succ_lt_succ (by simpa using hi)
      simp only [runBatchLoop, h0]
      rw [ih n (k + 1) s hn hok' hfail']
      by_cases hm : isSessionInvalidMsg m <;> by_cases hs : s.sessionEnded <;>
        simp [hm, hs, List.take, List.drop]

/-- Behaviour of the delivery loop when every send succeeds: all statements
of the batch are handed to the transport in order and the state is
untouched. -/
theorem runBatchLoop_allOk (deliver : Nat → Option String) :
    ∀ (q : List Stmt) (k : Nat) (s : TrackerState),
      (∀ j, j < q.length → deliver (k + j) = none) →
      runBatchLoop deliver k q s = (s, q) := by
  intro q
  induction q with
  | nil => intro k s _; rfl
  | cons a q ih =>
    intro k s hok
    have h0 : deliver k = none := by simpa using hok 0 (by simp)
    have hok' : ∀ j, j < q.length → deliver (k + 1 + j) = none := by
      intro j hj
      have := hok (j + 1) (by simpa using Nat.succ_lt_succ hj)
      simpa [Nat.add_comm, Nat.add_assoc, Nat.add_left_comm] using this
    simp [runBatchLoop, h0, ih (k + 1) s hok']

/-- C2: halt is absorbing. If, during a flush in the connected state, the
first failing delivery carries a session-invalidation message (it contains
"session not found" or "401"), then `processBatch` ends in the halted
configuration (`sessionEnded = true`, queue of length 0), its transport
calls stop at the failing statement, and from the halted configuration any
sequence of further `sendStatement`/`processBatch` actions leaves the state
unchanged (queue stays empty, `sessionEnded` stays true) and makes no
transport call at all. -/
theorem processBatch_halt_absorbing
    (s : TrackerState) (deliver : Nat → Option String) (i : Nat) (m : String)
    (hse : s.sessionEnded = false)
    (hi : i < s.statementQueue.length)
    (hok : ∀ j, j < i → deliver j = none)
    (hfail : deliver i = some m)
    (hinv : isSessionInvalidMsg m = true) :
    Halted (processBatch true false deliver s).1 ∧
    (processBatch true false deliver s).2 = s.statementQueue.take (i + 1) ∧
    ∀ ops : List TrackerOp,
      runOps ops (processBatch true false deliver s).1 =
        ((processBatch true false deliver s).1, []) := by
  have hne : s.statementQueue.isEmpty = false := by
    cases hq : s.statementQueue with
    | nil => rw [hq] at hi; simp at hi
    | cons a q => simp
  have hrun := runBatchLoop_firstFailure deliver m s.statementQueue i 0
    { s with statementQueue := [] } hi (by simpa using hok) (by simpa using hfail)
  have hpb : processBatch true false deliver s =
      ({ s with sessionEnded := true, statementQueue := [] },
        s.statementQueue.take (i + 1)) := by
    simp only [hse] at hrun
    simp [processBatch, hse, hne, SEND_TO_LRS, hrun, hinv]
  refine ⟨?_, ?_, ?_⟩
  · rw [hpb]; exact ⟨rfl, rfl⟩
  · rw [hpb]
  · intro ops
    apply halted_runOps
    rw [hpb]; exact ⟨rfl, rfl⟩

/-- C3: transient failure. If, during a flush in the connected state, the
first `i` deliveries succeed and the (i+1)-st fails with a message that is
not a session-invalidation message, then `processBatch` stops the flush:
the transport received exactly the first `i + 1` statements of the queue in
their original order (so the `i` delivered ones are not resent), and the
post-state queue is the failed statement followed by every statement after
it, in their original relative order, with `sessionEnded` still false. -/
theorem processBatch_transient_requeue
    (s : TrackerState) (deliver : Nat → Option String) (i : Nat) (m : String)
    (hse : s.sessionEnded = false)
    (hi : i < s.statementQueue.length)
    (hok : ∀ j, j < i → deliver j = none)
    (hfail : deliver i = some m)
    (htrans : isSessionInvalidMsg m = false) :
    processBatch true false deliver s =
      ({ s with statementQueue := s.statementQueue.drop i },
        s.statementQueue.take (i + 1)) := by
  have hne : s.statementQueue.isEmpty = false := by
    cases hq : s.statementQueue with
    | nil => rw [hq] at hi; simp at hi
    | cons a q => simp
  have hrun := runBatchLoop_firstFailure deliver m s.statementQueue i 0
    { s with statementQueue := [] } hi (by simpa using hok) (by simpa using hfail)
  simp only [hse] at hrun
  simp [processBatch, hse, hne, SEND_TO_LRS, hrun, htrans]

/-- C8: disconnected cap. When `processBatch` runs disconnected (not
connected, not terminated) with the session not ended and a non-empty
queue, it makes no transport call and the post-state queue is the suffix of
the most recent 100 statements: everything except the oldest
`length - 100` entries, hence of length at most 100. -/
theorem processBatch_disconnected_cap
    (s : TrackerState) (deliver : Nat → Option String)
    (hse : s.sessionEnded = false)
    (hne : s.statementQueue ≠ []) :
    processBatch false false deliver s =
      ({ s with statementQueue :=
          s.statementQueue.drop (s.statementQueue.length - 100) }, []) ∧
    (processBatch false false deliver s).1.statementQueue.length ≤ 100 := by
  have hq : s.statementQueue.isEmpty = false := by
    cases hq : s.statementQueue with
    | nil => exact absurd hq hne
    | cons a q => simp
  have hmain : processBatch false false deliver s =
      ({ s with statementQueue :=
          s.statementQueue.drop (s.statementQueue.length - 100) }, []) := by
    obtain ⟨q, e⟩ := s
    simp only at hse hq
    subst hse
    by_cases hlen : q.length > 100
    · simp [processBatch, hq, SEND_TO_LRS, hlen]
    · have hdrop : q.length - 100 = 0 := by
        simp only [List.length] at hlen ⊢
        omega
      simp [processBatch, hq, SEND_TO_LRS, hlen, hdrop]
  refine ⟨hmain, ?_⟩
  rw [hmain]
  simp only [List.length_drop]
  omega

/-- C2 witness: a concrete three-statement flush whose second delivery
fails with a `401` message halts, stops after two transport calls, and a
further send/flush pair changes nothing and calls nothing. -/
theorem processBatch_halt_absorbing_witness :
    Halted (processBatch true false
      (fun j => if j = 0 then none else some "401") ⟨[5, 6, 7], false⟩).1 ∧
    (processBatch true false
      (fun j => if j = 0 then none else some "401") ⟨[5, 6, 7], false⟩).2 =
      [5, 6] ∧
    runOps [TrackerOp.send false 9,
        TrackerOp.batch true false (fun _ => none)]
      (processBatch true false
        (fun j => if j = 0 then none else some "401") ⟨[5, 6, 7], false⟩).1 =
      ((processBatch true false
        (fun j => if j = 0 then none else some "401") ⟨[5, 6, 7], false⟩).1,
        []) := by
  have h := processBatch_halt_absorbing ⟨[5, 6, 7], false⟩
    (fun j => if j = 0 then none else some "401") 1 "401" rfl (by decide)
    (by decide) rfl (by decide)
  exact ⟨h.1, h.2.1,
    h.2.2 [TrackerOp.send false 9, TrackerOp.batch true false (fun _ => none)]⟩

/-- C3 witness: statement 3 of 5 fails transiently; statements 3, 4, 5 are
requeued at the front in order, statements 1 and 2 are not resent. -/
theorem processBatch_transient_requeue_witness :
    processBatch true false (fun j => if j = 2 then some "boom" else none)
      ⟨[1, 2, 3, 4, 5], false⟩ = (⟨[3, 4, 5], false⟩, [1, 2, 3]) := by
  have h := processBatch_transient_requeue ⟨[1, 2, 3, 4, 5], false⟩
    (fun j => if j = 2 then some "boom" else none) 2 "boom" rfl (by decide)
    (by decide) rfl (by decide)
  exact h

/-- C8 witness: a disconnected flush over a 102-element queue keeps the
most recent 100 statements, dropping the two oldest. -/
theorem processBatch_disconnected_cap_witness :
    processBatch false false (fun _ => none) ⟨List.range 102, false⟩ =
      (⟨(List.range 102).drop 2, false⟩, []) ∧
    (processBatch false false (fun _ => none)
      ⟨List.range 102, false⟩).1.statementQueue.length ≤ 100 := by
  have h := processBatch_disconnected_cap ⟨List.range 102, false⟩
    (fun _ => none) rfl (by decide)
  exact ⟨h.1, h.2⟩

end XapiTracker

namespace Cmi5W

/-- JS truthiness of a nullable string: `null` and `''` are falsy, every
other string is truthy. -/
def truthy : Option String → Bool
  | none => false
  | some s => !(s == "")

/-- An entry of a `contextActivities` array (`{id, objectType}`); only these
two fields are ever read or written by the wrapper. -/
structure Activity where
  id : String
  objectType : String
deriving Repr, DecidableEq

/-- The `contextActivities` object of an xAPI context; `parent` and
`grouping` are only ever copied whole, so their entries stay opaque. -/
structure ContextActivities where
  category : Option (List Activity)
  parent : Option (List Activity)
  grouping : Option (List Activity)
deriving Repr, DecidableEq

/-- The part of an xAPI statement context that cmi5-wrapper.js reads or
writes: `registration`, the extensions object (modelled as a key-value
list; the wrapper only ever touches the cmi5 session-id key), and
`contextActivities`. Fields the wrapper never touches (instructor,
platform, language) are elided. -/
structure StmtContext where
  registration : Option String
  extensions : Option (List (String × Option String))
  contextActivities : Option ContextActivities
deriving Repr, DecidableEq

/-- The record `saveSessionData` serializes into sessionStorage
(cmi5-wrapper.js lines 84-109). Fields that no verified operation reads
(`launchData`, `launchMode`, `masteryScore`, `moveOn`, `returnURL`,
`startTime`) are elided. -/
structure SessionData where
  endpoint : Option String
  authToken : Option String
  actor : Option String
  registration : Option String
  activityId : Option String
  sessionId : Option String
  contextTemplate : Option StmtContext
  initialized : Bool
  completionSent : Bool
  successSent : Bool
deriving Repr, DecidableEq

/-- The module-level mutable state of cmi5-wrapper.js (lines 47-76) that the
verified operations read or write. `actor` is kept opaque (the parsed JSON
value is only compared for presence and echoed back). -/
structure Cmi5State where
  initialized : Bool
  terminated : Bool
  endpoint : Option String
  fetchUrl : Option String
  actor : Option String
  registration : Option String
  activityId : Option String
  authToken : Option String
  sessionId : Option String
  contextTemplate : Option StmtContext
  completionSent : Bool
  successSent : Bool
deriving Repr, DecidableEq

/-- The state of the wrapper's globals at the start of a page load, before
`Cmi5.initialize` runs (declarations at cmi5-wrapper.js lines 47-76). -/
def pageLoadState : Cmi5State :=
  { initialized := false, terminated := false, endpoint := none,
    fetchUrl := none, actor := none, registration := none,
    activityId := none, authToken := none, sessionId := none,
    contextTemplate := none, completionSent := false, successSent := false }

/-- cmi5-wrapper.js `saveSessionData` (lines 84-109): snapshot the globals
into the sessionStorage record. -/
def saveSessionData (s : Cmi5State) : SessionData :=
  { endpoint := s.endpoint, authToken := s.authToken, actor := s.actor,
    registration := s.registration, activityId := s.activityId,
    sessionId := s.sessionId, contextTemplate := s.contextTemplate,
    initialized := s.initialized, completionSent := s.completionSent,
    successSent := s.successSent }

/-- cmi5-wrapper.js `clearSessionData` (lines 193-199). -/
def clearSessionData (_storage : Option SessionData) : Option SessionData :=
  none

/-- cmi5-wrapper.js `loadSessionData` (lines 115-188).
`currentRegistration` is `params.get('registration')` of the current page
and `currentSessionIdFromUrl` the `session` query parameter extracted from
the current `fetch` URL (`none` when the URL is absent or unparseable).
Restores the globals only when the stored registration is truthy and equal
to the current one AND (`sessionMatches`) the current session id is absent
or equal to the stored one AND the stored `authToken` is truthy; otherwise
the stale record is cleared. Returns (restored?, globals, storage). -/
def loadSessionData (storage : Option SessionData)
    (currentRegistration currentSessionIdFromUrl : Option String)
    (s : Cmi5State) : Bool × Cmi5State × Option SessionData :=
  match storage with
  | none => (false, s, none)
  | some data =>
    let registrationMatches :=
      truthy data.registration && data.registration == currentRegistration
    let sessionMatches :=
      !truthy currentSessionIdFromUrl ||
        data.sessionId == currentSessionIdFromUrl
    if registrationMatches && sessionMatches && truthy data.authToken then
      (true,
        { s with endpoint := data.endpoint, authToken := data.authToken,
                 actor := data.actor, registration := data.registration,
                 activityId := data.activityId, sessionId := data.sessionId,
                 contextTemplate := data.contextTemplate,
                 initialized := data.initialized,
                 completionSent := data.completionSent,
                 successSent := data.successSent },
        storage)
    else
      (false, s, clearSessionData storage)

/-- The launch parameters of one page URL, plus the two values the wrapper
derives from the `fetch` URL: `sessionFromFetch` is its `session` query
parameter (`none` when absent or unparseable) and `genId` the
`generateUUID()` fallback this load would draw. -/
structure LaunchParams where
  endpoint : Option String
  fetchUrl : Option String
  actor : Option String
  registration : Option String
  activityId : Option String
  sessionFromFetch : Option String
  genId : String
deriving Repr, DecidableEq

/-- cmi5-wrapper.js `parseLaunchParameters` (lines 203-241): copy the URL
parameters into the globals and report whether all five are truthy. -/
def parseLaunchParameters (p : LaunchParams) (s : Cmi5State) :
    Bool × Cmi5State :=
  let s' := { s with endpoint := p.endpoint, fetchUrl := p.fetchUrl,
                     registration := p.registration,
                     activityId := p.activityId, actor := p.actor }
  (truthy p.endpoint && truthy p.fetchUrl && truthy p.actor &&
     truthy p.registration && truthy p.activityId, s')

/-- Outcome of the one-time POST to the fetch URL: a 2xx body with a token
field, a 2xx body with no recognizable token field, or an HTTP error. -/
inductive ExchangeResult where
  | ok (token : String)
  | okNoToken
  | httpError (status : Nat)
deriving Repr, DecidableEq

/-- cmi5-wrapper.js lines 302-305: add the `Basic ` scheme when the token
carries no known scheme. -/
def normalizeToken (t : String) : String :=
  if t.startsWith "Basic " || t.startsWith "Bearer " then t
  else "Basic " ++ t

/-- Result of one `fetchAuthToken` call: the JS return/throw, the new
globals, the new sessionStorage, and whether the exchange POST was
actually issued. -/
structure FetchOutcome where
  result : Except String Bool
  state : Cmi5State
  storage : Option SessionData
  requested : Bool
deriving Repr

/-- cmi5-wrapper.js `fetchAuthToken` (lines 252-317): throw without a
request when no fetch URL is set; otherwise issue the one-time POST. On a
non-ok status or a body without a truthy token the function throws with
the globals and storage untouched; on success it normalizes the token,
stores it in `authToken` and persists the session via `saveSessionData`
before returning. -/
def fetchAuthToken (exchange : ExchangeResult) (s : Cmi5State)
    (storage : Option SessionData) : FetchOutcome :=
  if !truthy s.fetchUrl then
    { result := .error "No fetch URL available", state := s,
      storage := storage, requested := false }
  else
    match exchange with
    | .httpError status =>
      { result := .error ("Auth fetch failed: " ++ toString status),
        state := s, storage := storage, requested := true }
    | .okNoToken =>
      { result := .error "No auth token in response", state := s,
        storage := storage, requested := true }
    | .ok token =>
      if token == "" then
        { result := .error "No auth token in response", state := s,
          storage := storage, requested := true }
      else
        let s' := { s with authToken := some (normalizeToken token) }
        { result := .ok true, state := s',
          storage := some (saveSessionData s'), requested := true }

/-- The session id `loadSessionData` extracts from the current page's
`fetch` URL (cmi5-wrapper.js lines 129-138). -/
def currentSessionIdOf (p : LaunchParams) : Option String :=
  if truthy p.fetchUrl then p.sessionFromFetch else none

/-- The session id a fresh launch adopts (cmi5-wrapper.js lines 952-974):
the `session` parameter of the fetch URL when truthy, otherwise a locally
generated UUID. -/
def sessionIdFor (p : LaunchParams) : String :=
  if truthy p.fetchUrl then
    match p.sessionFromFetch with
    | some sid => if sid == "" then p.genId else sid
    | none => p.genId
  else p.genId

/-- The network behaviour one page load's `Cmi5.initialize` observes:
the exchange outcome, the `LMS.LaunchData` context template (steps 2-3
never throw), and whether the `initialized` statement PUT succeeds. -/
structure InitNet where
  exchange : ExchangeResult
  launchCtx : Option StmtContext
  initStmtOk : Bool
deriving Repr, DecidableEq

/-- Result of one page load's `Cmi5.initialize`. `issued` counts exchange
POSTs actually sent during the load; `exchangeOk` records whether one of
them succeeded. -/
structure InitOutcome where
  success : Bool
  state : Cmi5State
  storage : Option SessionData
  issued : Nat
  exchangeOk : Bool
deriving Repr

/-- The fresh-launch tail of `Cmi5.initialize` (cmi5-wrapper.js lines
946-1016), entered when no stored session was restored: parse the launch
parameters into the globals `s1`, adopt a session id, and — when all five
parameters are truthy — run (1) `fetchAuthToken`, (2)-(3) the non-fatal
preference/launch-data fetches (modelled by `net.launchCtx`), (4) the
`initialized` statement; a throw from (1) or (4) is caught, marking the
load unsuccessful but initialized. -/
def freshLaunch (p : LaunchParams) (net : InitNet) (s1 : Cmi5State)
    (st1 : Option SessionData) : InitOutcome :=
  let pr := parseLaunchParameters p s1
  let s3 := { pr.2 with sessionId := some (sessionIdFor p) }
  if !pr.1 then
    { success := true, state := { s3 with initialized := true },
      storage := st1, issued := 0, exchangeOk := false }
  else
    let f := fetchAuthToken net.exchange s3 st1
    let n := if f.requested then 1 else 0
    match f.result with
    | .error _ =>
      { success := false, state := { f.state with initialized := true },
        storage := f.storage, issued := n, exchangeOk := false }
    | .ok _ =>
      let s4 := { f.state with contextTemplate := net.launchCtx }
      if net.initStmtOk then
        let s5 := { s4 with initialized := true }
        { success := true, state := s5,
          storage := some (saveSessionData s5), issued := n,
          exchangeOk := true }
      else
        { success := false, state := { s4 with initialized := true },
          storage := f.storage, issued := n, exchangeOk := true }

/-- cmi5-wrapper.js `Cmi5.initialize` (lines 919-1017) for one page load
(fresh globals, so the `if (initialized)` guard at line 920 is passed).
First tries to restore the stored session; on restore with a truthy token
and endpoint it returns success without touching the exchange. Otherwise
it runs the fresh-launch sequence `freshLaunch`. -/
def initRun (p : LaunchParams) (net : InitNet)
    (storage : Option SessionData) : InitOutcome :=
  let r := loadSessionData storage p.registration (currentSessionIdOf p)
    pageLoadState
  if r.1 && truthy r.2.1.authToken && truthy r.2.1.endpoint then
    { success := true, state := r.2.1, storage := r.2.2, issued := 0,
      exchangeOk := false }
  else
    freshLaunch p net r.2.1 r.2.2

/-- Repeated page loads of the same launch URL: each load runs
`Cmi5.initialize` against the sessionStorage record the previous load left
behind. Returns the final storage, the total number of exchange POSTs
issued, and the number of successful exchanges. -/
def reloads (p : LaunchParams) :
    List InitNet → Option SessionData → Option SessionData × Nat × Nat
  | [], st => (st, 0, 0)
  | net :: nets, st =>
    let o := initRun p net st
    let rest := reloads p nets o.storage
    (rest.1, o.issued + rest.2.1,
      (if o.exchangeOk then 1 else 0) + rest.2.2)

def VERB_INITIALIZED : String := "http://adlnet.gov/expapi/verbs/initialized"
def VERB_COMPLETED : String := "http://adlnet.gov/expapi/verbs/completed"
def VERB_PASSED : String := "http://adlnet.gov/expapi/verbs/passed"
def VERB_FAILED : String := "http://adlnet.gov/expapi/verbs/failed"
def VERB_TERMINATED : String := "http://adlnet.gov/expapi/verbs/terminated"

/-- Outcome of one `lrsRequest` PUT of a statement (after the transport's
internal bounded retries): acknowledged, or thrown with a message. -/
inductive SendNet where
  | ok
  | err (msg : String)
deriving Repr, DecidableEq

/-- cmi5-wrapper.js `sendStatement` (lines 654-686), keyed by the
statement's verb id and client-generated id: returns `null` without a
transport call when already terminated (unless the statement is the
`terminated` one), otherwise PUTs the statement and either returns its id
or rethrows the transport error. The second component lists the verbs
handed to the transport. -/
def sendStatementOp (net : SendNet) (verbId stmtId : String)
    (s : Cmi5State) : Except String (Option String) × List String :=
  if s.terminated && !(verbId == VERB_TERMINATED) then (.ok none, [])
  else
    match net with
    | .ok => (.ok (some stmtId), [verbId])
    | .err m => (.error m, [verbId])

/-- Result of one lifecycle send (`sendCompleted`/`sendPassed`/`sendFailed`/
`sendTerminated`): the JS return/throw, the new globals and storage, the
verbs handed to the transport, the verbs the transport acknowledged, and
how many statements the call built. -/
structure LifecycleOutcome where
  result : Except String (Option String)
  state : Cmi5State
  storage : Option SessionData
  attempted : List String
  delivered : List String
  built : Nat
deriving Repr

/-- cmi5-wrapper.js `sendCompleted` (lines 751-776): a no-op returning null
when `completionSent` is already set; otherwise builds and sends one
`completed` statement and records `completionSent` (persisting the
session) only when an id came back. -/
def sendCompleted (net : SendNet) (stmtId : String) (s : Cmi5State)
    (storage : Option SessionData) : LifecycleOutcome :=
  if s.completionSent then
    { result := .ok none, state := s, storage := storage, attempted := [],
      delivered := [], built := 0 }
  else
    let r := sendStatementOp net VERB_COMPLETED stmtId s
    match r.1 with
    | .ok none =>
      { result := .ok none, state := s, storage := storage,
        attempted := r.2, delivered := [], built := 1 }
    | .ok (some id) =>
      let s' := { s with completionSent := true }
      { result := .ok (some id), state := s',
        storage := some (saveSessionData s'), attempted := r.2,
        delivered := [VERB_COMPLETED], built := 1 }
    | .error m =>
      { result := .error m, state := s, storage := storage,
        attempted := r.2, delivered := [], built := 1 }

/-- cmi5-wrapper.js `sendPassed` (lines 778-814): a no-op returning null
when `successSent` is already set; otherwise builds and sends one `passed`
statement and records `successSent` (persisting the session) only when an
id came back. The score payload does not influence the guarded state and
is elided. -/
def sendPassed (net : SendNet) (stmtId : String) (s : Cmi5State)
    (storage : Option SessionData) : LifecycleOutcome :=
  if s.successSent then
    { result := .ok none, state := s, storage := storage, attempted := [],
      delivered := [], built := 0 }
  else
    let r := sendStatementOp net VERB_PASSED stmtId s
    match r.1 with
    | .ok none =>
      { result := .ok none, state := s, storage := storage,
        attempted := r.2, delivered := [], built := 1 }
    | .ok (some id) =>
      let s' := { s with successSent := true }
      { result := .ok (some id), state := s',
        storage := some (saveSessionData s'), attempted := r.2,
        delivered := [VERB_PASSED], built := 1 }
    | .error m =>
      { result := .error m, state := s, storage := storage,
        attempted := r.2, delivered := [], built := 1 }

/-- cmi5-wrapper.js `sendFailed` (lines 816-852): the mirror image of
`sendPassed`, guarded by the same `successSent` flag. -/
def sendFailed (net : SendNet) (stmtId : String) (s : Cmi5State)
    (storage : Option SessionData) : LifecycleOutcome :=
  if s.successSent then
    { result := .ok none, state := s, storage := storage, attempted := [],
      delivered := [], built := 0 }
  else
    let r := sendStatementOp net VERB_FAILED stmtId s
    match r.1 with
    | .ok none =>
      { result := .ok none, state := s, storage := storage,
        attempted := r.2, delivered := [], built := 1 }
    | .ok (some id) =>
      let s' := { s with successSent := true }
      { result := .ok (some id), state := s',
        storage := some (saveSessionData s'), attempted := r.2,
        delivered := [VERB_FAILED], built := 1 }
    | .error m =>
      { result := .error m, state := s, storage := storage,
        attempted := r.2, delivered := [], built := 1 }

/-- cmi5-wrapper.js `sendTerminated` (lines 854-880): a no-op when already
terminated; otherwise builds and sends one `terminated` statement. When
the send returns, `terminated` is set and the session store is cleared;
when it throws, the error is rethrown with `terminated` and the store
untouched. -/
def sendTerminated (net : SendNet) (stmtId : String) (s : Cmi5State)
    (storage : Option SessionData) : LifecycleOutcome :=
  if s.terminated then
    { result := .ok none, state := s, storage := storage, attempted := [],
      delivered := [], built := 0 }
  else
    let r := sendStatementOp net VERB_TERMINATED stmtId s
    match r.1 with
    | .ok v =>
      { result := .ok v, state := { s with terminated := true },
        storage := clearSessionData storage, attempted := r.2,
        delivered := [VERB_TERMINATED], built := 1 }
    | .error m =>
      { result := .error m, state := s, storage := storage,
        attempted := r.2, delivered := [], built := 1 }

/-- One call into the pass/fail/complete lifecycle API
(`Cmi5.pass` / `Cmi5.fail` / `Cmi5.complete` once initialized). -/
inductive ScoreOp where
  | pass (net : SendNet) (stmtId : String)
  | fail (net : SendNet) (stmtId : String)
  | complete (net : SendNet) (stmtId : String)

/-- Apply one lifecycle call; the second component is the verbs the
transport acknowledged during the call. -/
def applyScoreOp :
    ScoreOp → Cmi5State × Option SessionData →
      (Cmi5State × Option SessionData) × List String
  | .pass net id, (s, st) =>
    let o := sendPassed net id s st
    ((o.state, o.storage), o.delivered)
  | .fail net id, (s, st) =>
    let o := sendFailed net id s st
    ((o.state, o.storage), o.delivered)
  | .complete net id, (s, st) =>
    let o := sendCompleted net id s st
    ((o.state, o.storage), o.delivered)

/-- Run a sequence of lifecycle calls, accumulating acknowledged verbs. -/
def runScoreOps :
    List ScoreOp → Cmi5State × Option SessionData →
      (Cmi5State × Option SessionData) × List String
  | [], q => (q, [])
  | op :: ops, q =>
    let r := applyScoreOp op q
    let r2 := runScoreOps ops r.1
    (r2.1, r.2 ++ r2.2)

/-- How many of the acknowledged verbs are `passed` or `failed`. -/
def scoreCount (l : List String) : Nat :=
  l.countP (fun v => v == VERB_PASSED || v == VERB_FAILED)

theorem applyScoreOp_successSent (op : ScoreOp) (s : Cmi5State)
    (st : Option SessionData) (h : s.successSent = true) :
    (applyScoreOp op (s, st)).1.1.successSent = true ∧
      scoreCount (applyScoreOp op (s, st)).2 = 0 := by
  cases op with
  | pass net id => simp [applyScoreOp, sendPassed, h, scoreCount]
  | fail net id => simp [applyScoreOp, sendFailed, h, scoreCount]
  | complete net id =>
    by_cases hc : s.completionSent
    · simp [applyScoreOp, sendCompleted, hc, scoreCount, h]
    · simp only [applyScoreOp, sendCompleted, hc, if_false]
      cases hsend : (sendStatementOp net VERB_COMPLETED id s).1 with
      | ok v =>
        cases v with
        | none => simp [hsend, scoreCount, h]
        | some w =>
          refine ⟨by simp [hsend, h], ?_⟩
          simp [hsend, scoreCount, VERB_COMPLETED, VERB_PASSED, VERB_FAILED]
      | error m => simp [hsend, scoreCount, h]

theorem applyScoreOp_cases (op : ScoreOp) (s : Cmi5State)
    (st : Option SessionData) :
    scoreCount (applyScoreOp op (s, st)).2 = 0 ∨
      (scoreCount (applyScoreOp op (s, st)).2 = 1 ∧
        (applyScoreOp op (s, st)).1.1.successSent = true) := by
  cases op with
  | pass net id =>
    by_cases hs : s.successSent
    · left; exact (applyScoreOp_successSent (.pass net id) s st hs).2
    · simp only [applyScoreOp, sendPassed, hs, if_false]
      cases net <;>
        simp [sendStatementOp, scoreCount] <;>
        split <;> simp [scoreCount]
  | fail net id =>
    by_cases hs : s.successSent
    · left; exact (applyScoreOp_successSent (.fail net id) s st hs).2
    · simp only [applyScoreOp, sendFailed, hs, if_false]
      cases net <;>
        simp [sendStatementOp, scoreCount] <;>
        split <;> simp [scoreCount]
  | complete net id =>
    by_cases hc : s.completionSent
    · left; simp [applyScoreOp, sendCompleted, hc, scoreCount]
    · simp only [applyScoreOp, sendCompleted, hc, if_false]
      cases net <;>
        simp [sendStatementOp, scoreCount, VERB_COMPLETED, VERB_PASSED,
          VERB_FAILED] <;>
        split <;> simp [scoreCount, VERB_COMPLETED, VERB_PASSED, VERB_FAILED]

theorem runScoreOps_bound (ops : List ScoreOp) :
    ∀ (s : Cmi5State) (st : Option SessionData),
      scoreCount (runScoreOps ops (s, st)).2 ≤
        (if s.successSent then 0 else 1) := by
  induction ops with
  | nil => intro s st; simp [runScoreOps, scoreCount]
  | cons op ops ih =>
    intro s st
    rcases hA : applyScoreOp op (s, st) with ⟨⟨s', st'⟩, d⟩
    have hc : scoreCount d = 0 ∨ (scoreCount d = 1 ∧ s'.successSent = true) := by
      have h := applyScoreOp_cases op s st
      rw [hA] at h
      exact h
    have hrest := ih s' st'
    have hgoal : scoreCount (runScoreOps (op :: ops) (s, st)).2 =
        scoreCount d + scoreCount (runScoreOps ops (s', st')).2 := by
      simp [runScoreOps, hA, scoreCount, List.countP_append]
    rw [hgoal]
    by_cases hs : s.successSent
    · have h1 : s'.successSent = true ∧ scoreCount d = 0 := by
        have h := applyScoreOp_successSent op s st hs
        rw [hA] at h
        exact h
      rw [h1.1] at hrest
      simp at hrest
      simp [hs]
      omega
    · simp [hs]
      have hrest1 : scoreCount (runScoreOps ops (s', st')).2 ≤ 1 := by
        rcases h' : s'.successSent
        · rw [h'] at hrest
          simpa using hrest
        · rw [h'] at hrest
          simp at hrest
          omega
      rcases hc with h0 | ⟨h1, h2⟩
      · omega
      · rw [h2] at hrest
        simp at hrest
        omega

/-- Concrete stored record used in witnesses: a persisted session for
registration `reg-1` and LMS session `sess-A`. -/
def sampleStored : SessionData :=
  { endpoint := some "https://lrs.example/xapi/",
    authToken := some "Basic abc", actor := some "mbox:a@example.org",
    registration := some "reg-1", activityId := some "https://example/act",
    sessionId := some "sess-A", contextTemplate := none,
    initialized := true, completionSent := false, successSent := false }

/-- Concrete launch parameters used in witnesses: the same registration but
a fresh LMS session `sid-old` embedded in the fetch URL. -/
def sampleLaunch : LaunchParams :=
  { endpoint := some "https://lrs.example/xapi/",
    fetchUrl := some "https://lms.example/fetch?session=sid-old",
    actor := some "mbox:a@example.org", registration := some "reg-1",
    activityId := some "https://example/act",
    sessionFromFetch := some "sid-old", genId := "gen-1" }

/-- Concrete network behaviour used in witnesses: the exchange succeeds and
the initialized statement is accepted. -/
def sampleNet : InitNet :=
  { exchange := .ok "dG9rZW4=", launchCtx := none, initStmtOk := true }

/-- A state in which a passed/failed and a completed statement have already
been delivered. -/
def sentState : Cmi5State :=
  { pageLoadState with successSent := true, completionSent := true }

theorem freshLaunch_hasParams_issued (p : LaunchParams) (net : InitNet)
    (s1 : Cmi5State) (st1 : Option SessionData)
    (hp : (truthy p.endpoint && truthy p.fetchUrl && truthy p.actor &&
      truthy p.registration && truthy p.activityId) = true) :
    (freshLaunch p net s1 st1).issued = 1 := by
  simp only [Bool.and_eq_true] at hp
  obtain ⟨⟨⟨⟨he, hf⟩, ha⟩, hr⟩, hact⟩ := hp
  simp only [freshLaunch, parseLaunchParameters, fetchAuthToken, hf]
  cases net.exchange with
  | ok token =>
    by_cases ht : token == ""
    · simp [ht, he, ha, hr, hact]
    · cases hnet : net.initStmtOk <;> simp [ht, hnet, he, ha, hr, hact]
  | okNoToken => simp [he, ha, hr, hact]
  | httpError status => simp [he, ha, hr, hact]

/-- Exchange outcomes that yield a usable token. -/
def exchangeAvailable : ExchangeResult → Bool
  | .ok t => !(t == "")
  | _ => false

/-- A stored record matching the current launch of `sampleLaunch`. -/
def storedMatching : SessionData :=
  { sampleStored with sessionId := some "sid-old" }

/-- `fetchAuthToken`'s normalization never produces an empty (falsy)
token. -/
theorem normalizeToken_ne_empty (t : String) :
    (normalizeToken t == "") = false := by
  unfold normalizeToken
  split
  case isTrue h =>
    rcases eq_or_ne t "" with rfl | hne
    · exfalso; revert h; decide
    · simp [hne]
  case isFalse h =>
    have hne : ¬ ("Basic " ++ t = "") := by
      intro hEq
      have hlen := congrArg String.length hEq
      simp [String.length_append] at hlen
      exact absurd hlen.1 (by decide)
    simp [hne]

/-- A stored record that the next load of the same launch URL will restore
without a fresh exchange: matching truthy registration, a session id that
matches the current launch's (when one is extractable), and truthy
credential and endpoint. -/
def Restorable (p : LaunchParams) (st : Option SessionData) : Prop :=
  ∃ d, st = some d ∧
    (truthy d.registration && d.registration == p.registration) = true ∧
    (!truthy (currentSessionIdOf p) ||
      d.sessionId == currentSessionIdOf p) = true ∧
    truthy d.authToken = true ∧ truthy d.endpoint = true

theorem saved_restorable (p : LaunchParams) (s : Cmi5State)
    (hreg : s.registration = p.registration)
    (hses : s.sessionId = some (sessionIdFor p))
    (htok : ∃ t, s.authToken = some (normalizeToken t))
    (hend : s.endpoint = p.endpoint)
    (hfu : truthy p.fetchUrl = true)
    (hr : truthy p.registration = true)
    (he : truthy p.endpoint = true) :
    Restorable p (some (saveSessionData s)) := by
  obtain ⟨t, htok⟩ := htok
  refine ⟨saveSessionData s, rfl, ?_, ?_, ?_, ?_⟩
  · simp [saveSessionData, hreg, hr]
  · simp only [saveSessionData, hses, currentSessionIdOf, hfu, if_true]
    cases hsf : p.sessionFromFetch with
    | none => simp [truthy]
    | some sid =>
      by_cases hsid : (sid == "") = true
      · simp [truthy, hsid]
      · have hfor : sessionIdFor p = sid := by
          simp [sessionIdFor, hfu, hsf, hsid]
        simp [truthy, hsid, hfor]
  · simp [saveSessionData, htok, truthy, normalizeToken_ne_empty]
  · simp [saveSessionData, hend, he]

theorem initRun_cases (p : LaunchParams) (net : InitNet)
    (st : Option SessionData) :
    (initRun p net st).exchangeOk = false ∨
      initRun p net st = freshLaunch p net
        (loadSessionData st p.registration (currentSessionIdOf p)
          pageLoadState).2.1
        (loadSessionData st p.registration (currentSessionIdOf p)
          pageLoadState).2.2 := by
  simp only [initRun]
  split
  · left; rfl
  · right; rfl

theorem initRun_restorable (p : LaunchParams) (net : InitNet)
    (st : Option SessionData) (h : Restorable p st) :
    (initRun p net st).success = true ∧ (initRun p net st).issued = 0 ∧
      (initRun p net st).storage = st ∧
      (initRun p net st).exchangeOk = false := by
  obtain ⟨d, rfl, hreg, hses, htok, hend⟩ := h
  simp [initRun, loadSessionData, hreg, hses, htok, hend]

theorem freshLaunch_ok_fields (p : LaunchParams) (lc : Option StmtContext)
    (istmt : Bool) (token : String) (s1 : Cmi5State) (st1 : Option SessionData)
    (hp : (truthy p.endpoint && truthy p.fetchUrl && truthy p.actor &&
      truthy p.registration && truthy p.activityId) = true)
    (ht : ¬ token = "") :
    ∃ s', (freshLaunch p ⟨.ok token, lc, istmt⟩ s1 st1).storage =
        some (saveSessionData s') ∧
      (freshLaunch p ⟨.ok token, lc, istmt⟩ s1 st1).issued = 1 ∧
      (freshLaunch p ⟨.ok token, lc, istmt⟩ s1 st1).exchangeOk = true ∧
      s'.registration = p.registration ∧
      s'.sessionId = some (sessionIdFor p) ∧
      s'.authToken = some (normalizeToken token) ∧
      s'.endpoint = p.endpoint := by
  simp only [Bool.and_eq_true] at hp
  obtain ⟨⟨⟨⟨he, hf⟩, ha⟩, hr⟩, hact⟩ := hp
  cases istmt with
  | false =>
    refine ⟨{ initialized := s1.initialized, terminated := s1.terminated,
              endpoint := p.endpoint, fetchUrl := p.fetchUrl,
              actor := p.actor, registration := p.registration,
              activityId := p.activityId,
              authToken := some (normalizeToken token),
              sessionId := some (sessionIdFor p),
              contextTemplate := s1.contextTemplate,
              completionSent := s1.completionSent,
              successSent := s1.successSent },
      ?_, ?_, ?_, rfl, rfl, rfl, rfl⟩ <;>
      simp [freshLaunch, parseLaunchParameters, fetchAuthToken, hf, ht, he,
        ha, hr, hact]
  | true =>
    refine ⟨{ initialized := true, terminated := s1.terminated,
              endpoint := p.endpoint, fetchUrl := p.fetchUrl,
              actor := p.actor, registration := p.registration,
              activityId := p.activityId,
              authToken := some (normalizeToken token),
              sessionId := some (sessionIdFor p), contextTemplate := lc,
              completionSent := s1.completionSent,
              successSent := s1.successSent },
      ?_, ?_, ?_, rfl, rfl, rfl, rfl⟩ <;>
      simp [freshLaunch, parseLaunchParameters, fetchAuthToken, hf, ht, he,
        ha, hr, hact]

theorem freshLaunch_exchangeOk_restorable (p : LaunchParams) (net : InitNet)
    (s1 : Cmi5State) (st1 : Option SessionData)
    (hok : (freshLaunch p net s1 st1).exchangeOk = true) :
    Restorable p (freshLaunch p net s1 st1).storage ∧
      (freshLaunch p net s1 st1).issued = 1 := by
  by_cases hp : (truthy p.endpoint && truthy p.fetchUrl && truthy p.actor &&
      truthy p.registration && truthy p.activityId) = true
  case neg =>
    exfalso
    rw [Bool.not_eq_true] at hp
    simp [freshLaunch, parseLaunchParameters, hp] at hok
  case pos =>
    have hp' := hp
    simp only [Bool.and_eq_true] at hp'
    obtain ⟨⟨⟨⟨he, hf⟩, ha⟩, hr⟩, hact⟩ := hp'
    obtain ⟨ex, lc, istmt⟩ := net
    cases ex with
    | ok token =>
      by_cases ht : token = ""
      · exfalso
        simp [freshLaunch, parseLaunchParameters, fetchAuthToken, hf, ht, he,
          ha, hr, hact] at hok
      · obtain ⟨s', hsto, hiss, _, hregf, hsesf, htokf, hendf⟩ :=
          freshLaunch_ok_fields p lc istmt token s1 st1 hp ht
        rw [hsto]
        exact ⟨saved_restorable p s' hregf hsesf ⟨token, htokf⟩ hendf hf hr he,
          hiss⟩
    | okNoToken =>
      exfalso
      simp [freshLaunch, parseLaunchParameters, fetchAuthToken, hf, he, ha,
        hr, hact] at hok
    | httpError status =>
      exfalso
      simp [freshLaunch, parseLaunchParameters, fetchAuthToken, hf, he, ha,
        hr, hact] at hok

theorem initRun_exchangeOk_restorable (p : LaunchParams) (net : InitNet)
    (st : Option SessionData)
    (hok : (initRun p net st).exchangeOk = true) :
    Restorable p (initRun p net st).storage ∧
      (initRun p net st).issued = 1 := by
  rcases initRun_cases p net st with h | h
  · rw [h] at hok; exact absurd hok (by simp)
  · rw [h] at hok ⊢
    exact freshLaunch_exchangeOk_restorable p net _ _ hok

theorem reloads_restorable (p : LaunchParams) (nets : List InitNet) :
    ∀ st, Restorable p st →
      (reloads p nets st).2.1 = 0 ∧ (reloads p nets st).1 = st := by
  induction nets with
  | nil => intro st _; exact ⟨rfl, rfl⟩
  | cons net nets ih =>
    intro st h
    obtain ⟨_, hi, hst, _⟩ := initRun_restorable p net st h
    obtain ⟨h2i, h2st⟩ := ih (initRun p net st).storage (by rw [hst]; exact h)
    constructor
    · show (initRun p net st).issued +
        (reloads p nets (initRun p net st).storage).2.1 = 0
      rw [hi, h2i]
    · show (reloads p nets (initRun p net st).storage).1 = st
      rw [h2st, hst]

theorem reloads_ok_le_issued (p : LaunchParams) (nets : List InitNet) :
    ∀ st, (reloads p nets st).2.2 ≤ (reloads p nets st).2.1 := by
  induction nets with
  | nil => intro st; exact Nat.le_refl 0
  | cons net nets ih =>
    intro st
    show (if (initRun p net st).exchangeOk then 1 else 0) +
        (reloads p nets (initRun p net st).storage).2.2 ≤
      (initRun p net st).issued +
        (reloads p nets (initRun p net st).storage).2.1
    have h2 := ih (initRun p net st).storage
    by_cases hok : (initRun p net st).exchangeOk = true
    · have h1 := (initRun_exchangeOk_restorable p net st hok).2
      rw [hok, h1]
      simp only [if_true]
      omega
    · rw [Bool.not_eq_true] at hok
      rw [hok]
      simp only [Bool.false_eq_true, if_false]
      omega

theorem freshLaunch_issued_cases (p : LaunchParams) (net : InitNet)
    (s1 : Cmi5State) (st1 : Option SessionData) :
    (freshLaunch p net s1 st1).issued = 0 ∨
      ((freshLaunch p net s1 st1).issued = 1 ∧
        (exchangeAvailable net.exchange = true →
          (freshLaunch p net s1 st1).exchangeOk = true)) := by
  by_cases hp : (truthy p.endpoint && truthy p.fetchUrl && truthy p.actor &&
      truthy p.registration && truthy p.activityId) = true
  case neg =>
    rw [Bool.not_eq_true] at hp
    left
    simp [freshLaunch, parseLaunchParameters, hp]
  case pos =>
    have hp' := hp
    simp only [Bool.and_eq_true] at hp'
    obtain ⟨⟨⟨⟨he, hf⟩, ha⟩, hr⟩, hact⟩ := hp'
    obtain ⟨ex, lc, istmt⟩ := net
    cases ex with
    | ok token =>
      by_cases ht : token = ""
      · right
        constructor
        · simp [freshLaunch, parseLaunchParameters, fetchAuthToken, hf, ht,
            he, ha, hr, hact]
        · intro hav
          exfalso
          simp [exchangeAvailable, ht] at hav
      · obtain ⟨s', _, hiss, hok, _, _, _, _⟩ :=
          freshLaunch_ok_fields p lc istmt token s1 st1 hp ht
        exact Or.inr ⟨hiss, fun _ => hok⟩
    | okNoToken =>
      right
      refine ⟨?_, fun hav => absurd hav (by simp [exchangeAvailable])⟩
      simp [freshLaunch, parseLaunchParameters, fetchAuthToken, hf, he, ha,
        hr, hact]
    | httpError status =>
      right
      refine ⟨?_, fun hav => absurd hav (by simp [exchangeAvailable])⟩
      simp [freshLaunch, parseLaunchParameters, fetchAuthToken, hf, he, ha,
        hr, hact]

theorem initRun_issued_cases (p : LaunchParams) (net : InitNet)
    (st : Option SessionData) :
    (initRun p net st).issued = 0 ∨
      ((initRun p net st).issued = 1 ∧
        (exchangeAvailable net.exchange = true →
          (initRun p net st).exchangeOk = true)) := by
  simp only [initRun]
  split
  · left; rfl
  · exact freshLaunch_issued_cases p net _ _

theorem reloads_allAvail (p : LaunchParams) (nets : List InitNet) :
    ∀ st, (∀ net ∈ nets, exchangeAvailable net.exchange = true) →
      (reloads p nets st).2.1 ≤ 1 := by
  induction nets with
  | nil => intro st _; exact Nat.le_succ 0
  | cons net nets ih =>
    intro st hall
    show (initRun p net st).issued +
      (reloads p nets (initRun p net st).storage).2.1 ≤ 1
    rcases initRun_issued_cases p net st with h0 | ⟨h1, himp⟩
    · have hrest := ih (initRun p net st).storage
        (fun n hn => hall n (List.mem_cons_of_mem _ hn))
      omega
    · have hok := himp (hall net (List.mem_cons_self _ _))
      have hres := (initRun_exchangeOk_restorable p net st hok).1
      have h0' := (reloads_restorable p nets _ hres).1
      omega

/-- C1 counterexample: with the launch parameters fixed (hence a fixed
(registrationId, sessionId) pair), a first load whose exchange POST fails
with HTTP 500 stores no credential, so the reload issues the exchange
request a second time: two requests across two page loads, refuting
"issued at most once across any number of page loads". -/
theorem exchange_reissued_after_failure :
    (reloads sampleLaunch
      [{ exchange := .httpError 500, launchCtx := none, initStmtOk := true },
        sampleNet] none).2.1 = 2 ∧
    ¬ (reloads sampleLaunch
      [{ exchange := .httpError 500, launchCtx := none, initStmtOk := true },
        sampleNet] none).2.1 ≤ 1 := by
  constructor
  · rfl
  · intro h
    exact absurd h (by decide)

/-- C1 (amended): the exchange is one-shot up to failed attempts. (a) On
success `fetchAuthToken` persists the credential via `saveSessionData`
before returning, with a truthy stored token; (b) a load that restores a
matching stored record (same registration, matching session id, truthy
token and endpoint) succeeds, issues no exchange request, and keeps the
stored record; (c) across any number of page loads of one launch URL at
most one exchange ever succeeds; (d) after a load whose exchange
succeeded, no later load issues the exchange request at all; (e) when
every issued exchange request succeeds, the request is issued at most
once across any number of page loads — only failed exchange attempts can
be re-issued on a reload. -/
theorem credential_exchange_once (p : LaunchParams) :
    (∀ exchange s storage,
      (fetchAuthToken exchange s storage).result = .ok true →
        (fetchAuthToken exchange s storage).storage =
          some (saveSessionData (fetchAuthToken exchange s storage).state) ∧
        truthy (fetchAuthToken exchange s storage).state.authToken = true) ∧
    (∀ net st, Restorable p st →
      (initRun p net st).success = true ∧ (initRun p net st).issued = 0 ∧
        (initRun p net st).storage = st) ∧
    (∀ nets st, (reloads p nets st).2.2 ≤ 1) ∧
    (∀ net st nets, (initRun p net st).exchangeOk = true →
      (reloads p nets (initRun p net st).storage).2.1 = 0) ∧
    (∀ nets, (∀ net ∈ nets, exchangeAvailable net.exchange = true) →
      (reloads p nets none).2.1 ≤ 1) := by
  refine ⟨?_, ?_, ?_, ?_, ?_⟩
  · intro exchange s storage hres
    by_cases hfu : truthy s.fetchUrl = true
    · cases exchange with
      | ok token =>
        by_cases ht : token = ""
        · exfalso; simp [fetchAuthToken, hfu, ht] at hres
        · constructor
          · simp [fetchAuthToken, hfu, ht]
          · have htk : (fetchAuthToken (.ok token) s storage).state.authToken =
                some (normalizeToken token) := by
              simp [fetchAuthToken, hfu, ht]
            rw [htk]
            simp [truthy, normalizeToken_ne_empty]
      | okNoToken => exfalso; simp [fetchAuthToken, hfu] at hres
      | httpError status => exfalso; simp [fetchAuthToken, hfu] at hres
    · exfalso
      rw [Bool.not_eq_true] at hfu
      simp [fetchAuthToken, hfu] at hres
  · intro net st h
    obtain ⟨hs, hi, hst, _⟩ := initRun_restorable p net st h
    exact ⟨hs, hi, hst⟩
  · intro nets
    induction nets with
    | nil => intro st; exact Nat.le_succ 0
    | cons net nets ih =>
      intro st
      show (if (initRun p net st).exchangeOk then 1 else 0) +
        (reloads p nets (initRun p net st).storage).2.2 ≤ 1
      by_cases hok : (initRun p net st).exchangeOk = true
      · have hres := (initRun_exchangeOk_restorable p net st hok).1
        have h0 := (reloads_restorable p nets _ hres).1
        have hle := reloads_ok_le_issued p nets (initRun p net st).storage
        rw [h0] at hle
        rw [hok]
        simp only [if_true]
        omega
      · rw [Bool.not_eq_true] at hok
        rw [hok]
        simp only [Bool.false_eq_true, if_false]
        have := ih (initRun p net st).storage
        omega
  · intro net st nets hok
    have hres := (initRun_exchangeOk_restorable p net st hok).1
    exact (reloads_restorable p nets _ hres).1
  · intro nets hall
    exact reloads_allAvail p nets none hall

/-- C1 witness: concrete instances of the amended claim — a restoring load
issues no exchange, three reloads with available exchanges yield at most
one success and one issued request, and a successful `fetchAuthToken`
persists the normalized credential. -/
theorem credential_exchange_once_witness :
    (initRun sampleLaunch sampleNet (some storedMatching)).success = true ∧
    (initRun sampleLaunch sampleNet (some storedMatching)).issued = 0 ∧
    (initRun sampleLaunch sampleNet (some storedMatching)).storage =
      some storedMatching ∧
    (reloads sampleLaunch [sampleNet, sampleNet, sampleNet] none).2.2 ≤ 1 ∧
    (reloads sampleLaunch [sampleNet, sampleNet, sampleNet] none).2.1 ≤ 1 ∧
    (fetchAuthToken (.ok "tok")
      { pageLoadState with fetchUrl := some "https://f" } none).storage =
      some (saveSessionData (fetchAuthToken (.ok "tok")
        { pageLoadState with fetchUrl := some "https://f" } none).state) := by
  have h := credential_exchange_once sampleLaunch
  have hres : Restorable sampleLaunch (some storedMatching) :=
    ⟨storedMatching, rfl, by decide, by decide, by decide, by decide⟩
  obtain ⟨h1, h2, h3⟩ := h.2.1 sampleNet (some storedMatching) hres
  refine ⟨h1, h2, h3, h.2.2.1 [sampleNet, sampleNet, sampleNet] none, ?_, ?_⟩
  · exact h.2.2.2.2 [sampleNet, sampleNet, sampleNet] (by decide)
  · exact (h.1 (.ok "tok")
      { pageLoadState with fetchUrl := some "https://f" } none rfl).1

/-- C4: stored-session validation. With a stored record present,
`loadSessionData` restores only when the stored registration is truthy
and equal to the current page's registration AND the stored session id
matches the one extracted from the current fetch URL (whenever that URL
yields one); on a mismatch on either axis the stored record is cleared
and restoration fails, and on such a mismatch a launch carrying a full
parameter set goes on to issue a fresh credential exchange. -/
theorem loadSessionData_validation (data : SessionData)
    (curReg curSid : Option String) (s : Cmi5State) (p : LaunchParams)
    (net : InitNet) :
    ((loadSessionData (some data) curReg curSid s).1 = true →
      (truthy data.registration && data.registration == curReg) = true ∧
      (!truthy curSid || data.sessionId == curSid) = true) ∧
    (((truthy data.registration && data.registration == curReg) = false ∨
        (!truthy curSid || data.sessionId == curSid) = false) →
      (loadSessionData (some data) curReg curSid s).1 = false ∧
      (loadSessionData (some data) curReg curSid s).2.2 = none) ∧
    (((truthy data.registration && data.registration == p.registration) = false ∨
        (!truthy (currentSessionIdOf p) ||
          data.sessionId == currentSessionIdOf p) = false) →
      (truthy p.endpoint && truthy p.fetchUrl && truthy p.actor &&
        truthy p.registration && truthy p.activityId) = true →
      (initRun p net (some data)).issued = 1) := by
  refine ⟨?_, ?_, ?_⟩
  · intro h
    by_cases hg : (truthy data.registration && data.registration == curReg) &&
        (!truthy curSid || data.sessionId == curSid) && truthy data.authToken
    · simp only [Bool.and_eq_true] at hg
      refine ⟨?_, hg.1.2⟩
      rw [Bool.and_eq_true]
      exact hg.1.1
    · rw [Bool.not_eq_true] at hg
      simp only [loadSessionData, hg, Bool.false_eq_true, if_false] at h
  · intro h
    have hg : ((truthy data.registration && data.registration == curReg) &&
        (!truthy curSid || data.sessionId == curSid) &&
        truthy data.authToken) = false := by
      rcases h with h | h <;> simp [h]
    simp [loadSessionData, hg, clearSessionData]
  · intro h hp
    have hg : ((truthy data.registration && data.registration == p.registration) &&
        (!truthy (currentSessionIdOf p) ||
          data.sessionId == currentSessionIdOf p) &&
        truthy data.authToken) = false := by
      rcases h with h | h <;> simp [h]
    have hload : loadSessionData (some data) p.registration
        (currentSessionIdOf p) pageLoadState =
        (false, pageLoadState, none) := by
      simp [loadSessionData, hg, clearSessionData]
    simp only [initRun, hload, Bool.false_and, Bool.false_eq_true, if_false]
    exact freshLaunch_hasParams_issued p net pageLoadState none hp

/-- C4 witness: a concrete stored record whose session id differs from the
current launch's session id is cleared, restoration fails, and the
concrete launch issues exactly one exchange POST. -/
theorem loadSessionData_validation_witness :
    ((!truthy (some "sid-old") ||
      ((some "sess-A" : Option String) == some "sid-old")) = false) ∧
    (loadSessionData (some sampleStored) (some "reg-1") (some "sid-old")
      pageLoadState).1 = false ∧
    (loadSessionData (some sampleStored) (some "reg-1") (some "sid-old")
      pageLoadState).2.2 = none ∧
    (initRun sampleLaunch sampleNet (some sampleStored)).issued = 1 := by
  have h := loadSessionData_validation sampleStored (some "reg-1")
    (some "sid-old") pageLoadState sampleLaunch sampleNet
  have hmis : ((!truthy (some "sid-old" : Option String) ||
      ((some "sess-A" : Option String) == some "sid-old")) = false) := by decide
  have hmis2 : ((truthy sampleStored.registration &&
      sampleStored.registration == some "reg-1") = false ∨
      (!truthy (some "sid-old" : Option String) ||
        sampleStored.sessionId == some "sid-old") = false) := by
    right; decide
  have hmis3 : ((truthy sampleStored.registration &&
      sampleStored.registration == sampleLaunch.registration) = false ∨
      (!truthy (currentSessionIdOf sampleLaunch) ||
        sampleStored.sessionId == currentSessionIdOf sampleLaunch) = false) := by
    right; decide
  have hp : (truthy sampleLaunch.endpoint && truthy sampleLaunch.fetchUrl &&
      truthy sampleLaunch.actor && truthy sampleLaunch.registration &&
      truthy sampleLaunch.activityId) = true := by decide
  exact ⟨hmis, (h.2.1 hmis2).1, (h.2.1 hmis2).2, h.2.2 hmis3 hp⟩

/-- C7: passed/failed is send-once. Once `successSent` is set (a passed or
failed statement was delivered successfully), `sendPassed` and
`sendFailed` return null immediately: no statement is built, none is
handed to the transport, and state and storage are untouched; the same
guard via `completionSent` makes `sendCompleted` a no-op on a second
call. Consequently, over any sequence of pass/fail/complete calls in one
session, at most one passed-or-failed statement is ever delivered. -/
theorem sendPassed_sendFailed_once (s : Cmi5State)
    (storage : Option SessionData) (net : SendNet) (stmtId : String)
    (hs : s.successSent = true) (hc : s.completionSent = true) :
    sendPassed net stmtId s storage =
      { result := .ok none, state := s, storage := storage, attempted := [],
        delivered := [], built := 0 } ∧
    sendFailed net stmtId s storage =
      { result := .ok none, state := s, storage := storage, attempted := [],
        delivered := [], built := 0 } ∧
    sendCompleted net stmtId s storage =
      { result := .ok none, state := s, storage := storage, attempted := [],
        delivered := [], built := 0 } ∧
    ∀ (ops : List ScoreOp) (s0 : Cmi5State) (st0 : Option SessionData),
      scoreCount (runScoreOps ops (s0, st0)).2 ≤ 1 := by
  refine ⟨by simp [sendPassed, hs], by simp [sendFailed, hs],
    by simp [sendCompleted, hc], ?_⟩
  intro ops s0 st0
  have h := runScoreOps_bound ops s0 st0
  rcases h' : s0.successSent <;> rw [h'] at h <;> simp at h <;> omega

/-- C7 witness: with `successSent` and `completionSent` set, a concrete
second pass attempt is a null no-op, and a concrete call sequence
delivers at most one passed/failed statement. -/
theorem sendPassed_sendFailed_once_witness :
    sendPassed .ok "id-2" sentState none =
      { result := .ok none, state := sentState, storage := none,
        attempted := [], delivered := [], built := 0 } ∧
    sendFailed .ok "id-3" sentState none =
      { result := .ok none, state := sentState, storage := none,
        attempted := [], delivered := [], built := 0 } ∧
    scoreCount (runScoreOps [ScoreOp.pass .ok "a", ScoreOp.pass .ok "b",
      ScoreOp.fail .ok "c"] (pageLoadState, none)).2 ≤ 1 := by
  have h := sendPassed_sendFailed_once sentState none .ok "id-2" rfl rfl
  have h' := sendPassed_sendFailed_once sentState none .ok "id-3" rfl rfl
  exact ⟨h.1, h'.2.1,
    h.2.2.2 [ScoreOp.pass .ok "a", ScoreOp.pass .ok "b", ScoreOp.fail .ok "c"]
      pageLoadState none⟩

/-- C9: `sendTerminated` changes termination state and the session store
together. When not yet terminated, a successful delivery of the
terminated statement returns its id, sets `terminated := true` and clears
the session store; a failed delivery rethrows the transport error with
`terminated` still false and the session store untouched, so stored state
can still be restored on a later reload. -/
theorem sendTerminated_atomic (s : Cmi5State) (storage : Option SessionData)
    (stmtId : String) (h : s.terminated = false) :
    sendTerminated .ok stmtId s storage =
      { result := .ok (some stmtId), state := { s with terminated := true },
        storage := none, attempted := [VERB_TERMINATED],
        delivered := [VERB_TERMINATED], built := 1 } ∧
    ∀ m, sendTerminated (.err m) stmtId s storage =
      { result := .error m, state := s, storage := storage,
        attempted := [VERB_TERMINATED], delivered := [], built := 1 } := by
  constructor
  · simp [sendTerminated, sendStatementOp, h, clearSessionData]
  · intro m
    simp [sendTerminated, sendStatementOp, h]

def CMI5_CATEGORY : String :=
  "https://w3id.org/xapi/cmi5/context/categories/cmi5"
def MOVEON_CATEGORY : String :=
  "https://w3id.org/xapi/cmi5/context/categories/moveon"
def SESSIONID_EXT : String :=
  "https://w3id.org/xapi/cmi5/context/extensions/sessionid"

/-- JS object key assignment `obj[k] = v` on an extensions object modelled
as a key-value list: replace the value when the key exists, append
otherwise. -/
def setKey : List (String × Option String) → String → Option String →
    List (String × Option String)
  | [], k, v => [(k, v)]
  | (k', v') :: rest, k, v =>
    if k' == k then (k, v) :: rest else (k', v') :: setKey rest k v

/-- cmi5-wrapper.js lines 611-625: append the reserved cmi5 category entry
unless one is already present. -/
def addCmi5Category (cat : List Activity) : List Activity :=
  if cat.any (fun a => a.id == CMI5_CATEGORY) then cat
  else cat ++ [{ id := CMI5_CATEGORY, objectType := "Activity" }]

/-- cmi5-wrapper.js lines 627-640: for passed/failed statements, append the
moveon category entry unless one is already present. -/
def addMoveOnCategory (verbId : String) (cat : List Activity) :
    List Activity :=
  if verbId == VERB_PASSED || verbId == VERB_FAILED then
    if cat.any (fun a => a.id == MOVEON_CATEGORY) then cat
    else cat ++ [{ id := MOVEON_CATEGORY, objectType := "Activity" }]
  else cat

/-- The context part of cmi5-wrapper.js `buildStatement` (lines 578-650):
start from a by-value copy of the context template (the JSON round-trip of
line 594; the heap model below covers the no-mutation claim), force the
registration, set the session-id extension, and apply the two category
rules. -/
def buildStatementContext (verbId : String) (s : Cmi5State) : StmtContext :=
  let context : StmtContext :=
    match s.contextTemplate with
    | some t => t
    | none => { registration := none, extensions := none,
                contextActivities := none }
  let context := { context with registration := s.registration }
  let exts := match context.extensions with | none => [] | some e => e
  let context :=
    { context with extensions := some (setKey exts SESSIONID_EXT s.sessionId) }
  let ca := match context.contextActivities with
    | none => ({ category := none, parent := none,
                 grouping := none } : ContextActivities)
    | some c => c
  let cat := match ca.category with | none => [] | some c => c
  let cat := addMoveOnCategory verbId (addCmi5Category cat)
  { context with contextActivities := some { ca with category := some cat } }

/-- The context of an "allowed" statement built by the public
`Cmi5.sendStatement` (cmi5-wrapper.js lines 1110-1142): registration and
the session-id extension only; no category is ever attached; when a
context template exists, its parent and grouping contextActivities (and
only those) are copied across. -/
def buildAllowedContext (s : Cmi5State) : StmtContext :=
  let context : StmtContext :=
    { registration := s.registration,
      extensions := some [(SESSIONID_EXT, s.sessionId)],
      contextActivities := none }
  match s.contextTemplate with
  | none => context
  | some t =>
    let ca0 : ContextActivities :=
      { category := none, parent := none, grouping := none }
    let ca1 :=
      match t.contextActivities with
      | none => ca0
      | some tca => { ca0 with parent := tca.parent, grouping := tca.grouping }
    { context with contextActivities := some ca1 }

/-- How many times the reserved cmi5 category marker occurs in a context's
category list. -/
def cmi5Marks (c : StmtContext) : Nat :=
  ((c.contextActivities.bind ContextActivities.category).getD []).countP
    (fun a => a.id == CMI5_CATEGORY)

/-- The five cmi5-defined lifecycle verbs sent by the wrapper. -/
def lifecycleVerbIds : List String :=
  [VERB_INITIALIZED, VERB_COMPLETED, VERB_PASSED, VERB_FAILED,
   VERB_TERMINATED]

/-- A concrete parent activity used in witnesses. -/
def sampleParent : Activity :=
  { id := "https://example/course", objectType := "Activity" }

/-- A concrete connected state carrying a context template with a parent
list, used in witnesses. -/
def ctxState : Cmi5State :=
  { pageLoadState with
      registration := some "reg-1",
      sessionId := some "sess-A",
      contextTemplate := some
        { registration := none, extensions := none,
          contextActivities := some
            { category := none, parent := some [sampleParent],
              grouping := none } } }

theorem addCmi5Category_marks (cat : List Activity)
    (h : cat.countP (fun a => a.id == CMI5_CATEGORY) ≤ 1) :
    (addCmi5Category cat).countP (fun a => a.id == CMI5_CATEGORY) = 1 := by
  unfold addCmi5Category
  by_cases hany : cat.any (fun a => a.id == CMI5_CATEGORY) = true
  · rw [if_pos hany]
    rw [List.any_eq_true] at hany
    obtain ⟨a, ha, hpa⟩ := hany
    have hpos : 0 < cat.countP (fun a => a.id == CMI5_CATEGORY) :=
      List.countP_pos_iff.mpr ⟨a, ha, hpa⟩
    omega
  · rw [if_neg hany]
    have hz : cat.countP (fun a => a.id == CMI5_CATEGORY) = 0 := by
      rw [List.countP_eq_zero]
      intro a ha
      rw [List.any_eq_true] at hany
      exact fun hpa => hany ⟨a, ha, hpa⟩
    rw [List.countP_append, hz]
    simp

theorem addMoveOnCategory_marks (verbId : String) (cat : List Activity) :
    (addMoveOnCategory verbId cat).countP (fun a => a.id == CMI5_CATEGORY) =
      cat.countP (fun a => a.id == CMI5_CATEGORY) := by
  unfold addMoveOnCategory
  split
  · split
    · rfl
    · rw [List.countP_append]
      have : List.countP (fun a => a.id == CMI5_CATEGORY)
          [({ id := MOVEON_CATEGORY, objectType := "Activity" } : Activity)] =
          0 := by decide
      rw [this, Nat.add_zero]
  · rfl

/-- C6: category-marker rule. For every lifecycle verb, the context built
by `buildStatement` carries the reserved cmi5 category marker exactly once
(provided the LMS-supplied template does not itself duplicate the marker),
while a producer-submitted "allowed" statement built by the public
`sendStatement` carries no category at all: its context holds exactly the
registration, the session-id extension, and the parent/grouping lists
copied from the context template when present. -/
theorem buildStatement_category_rule (s : Cmi5State) (verbId : String)
    (_hlv : verbId ∈ lifecycleVerbIds)
    (htmpl : cmi5Marks (s.contextTemplate.getD
      { registration := none, extensions := none,
        contextActivities := none }) ≤ 1) :
    cmi5Marks (buildStatementContext verbId s) = 1 ∧
    cmi5Marks (buildAllowedContext s) = 0 ∧
    (buildAllowedContext s).registration = s.registration ∧
    (buildAllowedContext s).extensions = some [(SESSIONID_EXT, s.sessionId)] ∧
    (buildAllowedContext s).contextActivities.bind
      ContextActivities.category = none ∧
    (buildAllowedContext s).contextActivities.bind ContextActivities.parent =
      (s.contextTemplate.bind StmtContext.contextActivities).bind
        ContextActivities.parent ∧
    (buildAllowedContext s).contextActivities.bind ContextActivities.grouping =
      (s.contextTemplate.bind StmtContext.contextActivities).bind
        ContextActivities.grouping := by
  have hmain : cmi5Marks (buildStatementContext verbId s) = 1 := by
    cases hct : s.contextTemplate with
    | none =>
      simp only [buildStatementContext, hct, cmi5Marks, Option.some_bind,
        Option.getD_some]
      rw [addMoveOnCategory_marks, addCmi5Category_marks]
      decide
    | some t =>
      rw [hct] at htmpl
      simp only [Option.getD_some] at htmpl
      cases hca : t.contextActivities with
      | none =>
        simp only [buildStatementContext, hct, hca, cmi5Marks,
          Option.some_bind, Option.getD_some]
        rw [addMoveOnCategory_marks, addCmi5Category_marks]
        decide
      | some tca =>
        cases hcat : tca.category with
        | none =>
          simp only [buildStatementContext, hct, hca, hcat, cmi5Marks,
            Option.some_bind, Option.getD_some]
          rw [addMoveOnCategory_marks, addCmi5Category_marks]
          decide
        | some l =>
          simp only [cmi5Marks, hca, hcat, Option.some_bind,
            Option.getD_some] at htmpl
          simp only [buildStatementContext, hct, hca, hcat, cmi5Marks,
            Option.some_bind, Option.getD_some]
          rw [addMoveOnCategory_marks, addCmi5Category_marks l htmpl]
  refine ⟨hmain, ?_, ?_, ?_, ?_, ?_, ?_⟩ <;>
    cases hct : s.contextTemplate with
    | none => simp [buildAllowedContext, hct, cmi5Marks]
    | some t =>
      cases hca : t.contextActivities <;>
        simp [buildAllowedContext, hct, hca, cmi5Marks]

/-- C6 witness: a concrete launch state with a parent-bearing template — a
concrete passed statement carries the marker once, a concrete allowed
statement carries none and copies the parent list. -/
theorem buildStatement_category_rule_witness :
    cmi5Marks (buildStatementContext VERB_PASSED ctxState) = 1 ∧
    cmi5Marks (buildAllowedContext ctxState) = 0 ∧
    (buildAllowedContext ctxState).contextActivities.bind
      ContextActivities.category = none ∧
    (buildAllowedContext ctxState).contextActivities.bind
      ContextActivities.parent = some [sampleParent] := by
  have h := buildStatement_category_rule ctxState VERB_PASSED (by decide)
    (by decide)
  refine ⟨h.1, h.2.1, h.2.2.2.2.1, ?_⟩
  rw [h.2.2.2.2.2.1]
  decide

/-- A JS heap object of the four kinds `buildStatement` and the public
`sendStatement` touch: a context object, an extensions object, a
contextActivities object, and a category array. Object references are
heap indices; `parent`/`grouping` are only ever copied whole and never
written through, so they are held as values. -/
inductive HObj where
  | ctx (registration : Option String) (extensionsRef : Option Nat)
      (contextActivitiesRef : Option Nat)
  | exts (entries : List (String × Option String))
  | ca (categoryRef : Option Nat) (parent : Option (List Activity))
      (grouping : Option (List Activity))
  | cat (entries : List Activity)
deriving Repr, DecidableEq

/-- A JS heap: objects indexed by allocation order. -/
abbrev Heap := List HObj

/-- Read a reference (a dangling reference reads an empty context). -/
def getObj (h : Heap) (r : Nat) : HObj :=
  h.getD r (.ctx none none none)

/-- Overwrite the object a reference points at. -/
def setObj (h : Heap) (r : Nat) (o : HObj) : Heap := h.set r o

/-- Allocate a fresh object, returning the new heap and the reference. -/
def alloc (h : Heap) (o : HObj) : Heap × Nat := (h ++ [o], h.length)

/-- Field reads, defaulting on a kind mismatch. -/
def ctxFields (h : Heap) (r : Nat) :
    Option String × Option Nat × Option Nat :=
  match getObj h r with
  | .ctx reg e c => (reg, e, c)
  | _ => (none, none, none)

def extsEntries (h : Heap) (r : Nat) : List (String × Option String) :=
  match getObj h r with
  | .exts l => l
  | _ => []

def caFields (h : Heap) (r : Nat) :
    Option Nat × Option (List Activity) × Option (List Activity) :=
  match getObj h r with
  | .ca c p g => (c, p, g)
  | _ => (none, none, none)

def catEntries (h : Heap) (r : Nat) : List Activity :=
  match getObj h r with
  | .cat l => l
  | _ => []

/-- The context value reachable from a reference — what `JSON.stringify`
serializes from a context object. -/
def readCtx (h : Heap) (r : Nat) : StmtContext :=
  match getObj h r with
  | .ctx reg eRef caRef =>
    { registration := reg,
      extensions := eRef.map (extsEntries h),
      contextActivities := caRef.map (fun cr =>
        { category := (caFields h cr).1.map (catEntries h),
          parent := (caFields h cr).2.1,
          grouping := (caFields h cr).2.2 }) }
  | _ => { registration := none, extensions := none,
           contextActivities := none }

/-- `JSON.parse(JSON.stringify(contextTemplate))` (cmi5-wrapper.js line
594): allocate fresh copies of the context object and of every object
reachable from it, leaving the original graph untouched. -/
def deepCopyCtx (h : Heap) (r : Nat) : Heap × Nat :=
  let v := readCtx h r
  let n := h.length
  match v.extensions, v.contextActivities with
  | none, none => (h ++ [.ctx v.registration none none], n)
  | some l, none =>
    (h ++ [.exts l, .ctx v.registration (some n) none], n + 1)
  | none, some cav =>
    match cav.category with
    | none =>
      (h ++ [.ca none cav.parent cav.grouping,
             .ctx v.registration none (some n)], n + 1)
    | some cl =>
      (h ++ [.cat cl, .ca (some n) cav.parent cav.grouping,
             .ctx v.registration none (some (n + 1))], n + 2)
  | some l, some cav =>
    match cav.category with
    | none =>
      (h ++ [.exts l, .ca none cav.parent cav.grouping,
             .ctx v.registration (some n) (some (n + 1))], n + 2)
    | some cl =>
      (h ++ [.exts l, .cat cl, .ca (some (n + 1)) cav.parent cav.grouping,
             .ctx v.registration (some n) (some (n + 2))], n + 3)

/-- cmi5-wrapper.js line 598: `context.registration = registration`. -/
def setCtxRegistration (reg : Option String) (h : Heap) (r : Nat) : Heap :=
  setObj h r (.ctx reg (ctxFields h r).2.1 (ctxFields h r).2.2)

/-- cmi5-wrapper.js lines 601-603: `if (!context.extensions)
context.extensions = {}`; returns the extensions reference. -/
def ensureExtensions (h : Heap) (r : Nat) : Heap × Nat :=
  match (ctxFields h r).2.1 with
  | some er => (h, er)
  | none =>
    let a := alloc h (.exts [])
    (setObj a.1 r (.ctx (ctxFields a.1 r).1 (some a.2)
      (ctxFields a.1 r).2.2), a.2)

/-- cmi5-wrapper.js line 604: set the session-id extension key. -/
def setSessionExt (sessionId : Option String) (h : Heap) (er : Nat) : Heap :=
  setObj h er (.exts (setKey (extsEntries h er) SESSIONID_EXT sessionId))

/-- cmi5-wrapper.js lines 607-609: `if (!context.contextActivities)
context.contextActivities = {}`; returns the contextActivities
reference. -/
def ensureContextActivities (h : Heap) (r : Nat) : Heap × Nat :=
  match (ctxFields h r).2.2 with
  | some cr => (h, cr)
  | none =>
    let a := alloc h (.ca none none none)
    (setObj a.1 r (.ctx (ctxFields a.1 r).1 (ctxFields a.1 r).2.1
      (some a.2)), a.2)

/-- cmi5-wrapper.js lines 612-614: `if (!category) category = []`; returns
the category-array reference. -/
def ensureCategory (h : Heap) (cr : Nat) : Heap × Nat :=
  match (caFields h cr).1 with
  | some ct => (h, ct)
  | none =>
    let a := alloc h (.cat [])
    (setObj a.1 cr (.ca (some a.2) (caFields a.1 cr).2.1
      (caFields a.1 cr).2.2), a.2)

/-- cmi5-wrapper.js lines 616-640: push the cmi5 category when absent, then
the moveon category for passed/failed. -/
def pushCategories (verbId : String) (h : Heap) (ct : Nat) : Heap :=
  let h1 := setObj h ct (.cat (addCmi5Category (catEntries h ct)))
  setObj h1 ct (.cat (addMoveOnCategory verbId (catEntries h1 ct)))

/-- cmi5-wrapper.js lines 598-642: the write sequence applied to the fresh
context object at `r0`. -/
def buildTail (verbId : String) (registration sessionId : Option String)
    (h0 : Heap) (r0 : Nat) : Heap :=
  let h1 := setCtxRegistration registration h0 r0
  let e := ensureExtensions h1 r0
  let h2 := setSessionExt sessionId e.1 e.2
  let ca := ensureContextActivities h2 r0
  let ct := ensureCategory ca.1 ca.2
  pushCategories verbId ct.1 ct.2

/-- Heap-level `buildStatement` context construction (cmi5-wrapper.js lines
590-642), mutating through references exactly where the source does:
deep-copy the template (or start from a fresh empty context), then apply
the write sequence to the copy. -/
def buildStatementCtxH (verbId : String) (registration sessionId : Option String)
    (templateRef : Option Nat) (h : Heap) : Heap × Nat :=
  let c := match templateRef with
    | some r => deepCopyCtx h r
    | none => alloc h (.ctx none none none)
  (buildTail verbId registration sessionId c.1 c.2, c.2)

/-- Heap-level context construction of the public `Cmi5.sendStatement`
(cmi5-wrapper.js lines 1110-1142): a fresh context literal with the
session-id extension; when a template exists, a fresh contextActivities
object whose parent/grouping are read (only read) off the template. -/
def buildAllowedCtxH (registration sessionId : Option String)
    (templateRef : Option Nat) (h : Heap) : Heap × Nat :=
  let a1 := alloc h (.exts [(SESSIONID_EXT, sessionId)])
  let a2 := alloc a1.1 (.ctx registration (some a1.2) none)
  match templateRef with
  | none => (a2.1, a2.2)
  | some tr =>
    let a3 := alloc a2.1 (.ca none none none)
    let h3 := setObj a3.1 a2.2 (.ctx registration (some a1.2) (some a3.2))
    match (ctxFields h3 tr).2.2 with
    | none => (h3, a2.2)
    | some tcr =>
      (setObj h3 a3.2
        (.ca none (caFields h3 tcr).2.1 (caFields h3 tcr).2.2), a2.2)

/-- One statement build: a lifecycle statement via `buildStatement` or an
allowed statement via the public `sendStatement`. -/
inductive BuildOp where
  | lifecycle (verbId : String) (registration sessionId : Option String)
  | allowed (registration sessionId : Option String)

/-- Run a sequence of statement builds against the heap holding the cached
context template. -/
def runBuilds (templateRef : Option Nat) : List BuildOp → Heap → Heap
  | [], h => h
  | op :: ops, h =>
    match op with
    | .lifecycle v reg sid =>
      runBuilds templateRef ops (buildStatementCtxH v reg sid templateRef h).1
    | .allowed reg sid =>
      runBuilds templateRef ops (buildAllowedCtxH reg sid templateRef h).1

/-- `h'` reads the same object as `h` at every reference below `n`. -/
def PrefixKept (n : Nat) (h h' : Heap) : Prop :=
  ∀ j, j < n → getObj h' j = getObj h j

/-- All references stored in the context object at `r` (and the category
reference of its contextActivities object) point at or above `n`. -/
def CtxFresh (n : Nat) (h : Heap) (r : Nat) : Prop :=
  (∀ er, (ctxFields h r).2.1 = some er → n ≤ er) ∧
  (∀ cr, (ctxFields h r).2.2 = some cr → n ≤ cr ∧
    ∀ ct, (caFields h cr).1 = some ct → n ≤ ct)

/-- The category reference of the contextActivities object at `cr` points
at or above `n`. -/
def CaFresh (n : Nat) (h : Heap) (cr : Nat) : Prop :=
  ∀ ct, (caFields h cr).1 = some ct → n ≤ ct

theorem getObj_append (h t : Heap) (j : Nat) (hj : j < h.length) :
    getObj (h ++ t) j = getObj h j :=
  List.getD_append h t _ j hj

theorem getObj_append_right (h t : Heap) (k : Nat) :
    getObj (h ++ t) (h.length + k) = getObj t k := by
  simp only [getObj, List.getD_eq_getElem?_getD]
  rw [List.getElem?_append_right (by omega)]
  simp

theorem getObj_set_ne (h : Heap) (r j : Nat) (o : HObj) (hne : r ≠ j) :
    getObj (setObj h r o) j = getObj h j := by
  simp [getObj, setObj, List.getD_eq_getElem?_getD, List.getElem?_set_ne hne]

theorem getObj_set_cases (h : Heap) (r : Nat) (o : HObj) :
    getObj (setObj h r o) r = o ∨ getObj (setObj h r o) r = getObj h r := by
  by_cases hr : r < h.length
  · left
    simp [getObj, setObj, List.getD_eq_getElem?_getD,
      List.getElem?_set_self, hr]
  · right
    rw [setObj, List.set_eq_of_length_le (by omega)]

theorem prefixKept_refl (n : Nat) (h : Heap) : PrefixKept n h h :=
  fun _ _ => rfl

theorem prefixKept_trans {n : Nat} {h1 h2 h3 : Heap}
    (a : PrefixKept n h1 h2) (b : PrefixKept n h2 h3) :
    PrefixKept n h1 h3 :=
  fun j hj => (b j hj).trans (a j hj)

theorem prefixKept_mono {n m : Nat} {h h' : Heap} (hnm : n ≤ m)
    (a : PrefixKept m h h') : PrefixKept n h h' :=
  fun j hj => a j (by omega)

theorem prefixKept_set (n : Nat) (h : Heap) (r : Nat) (o : HObj)
    (hr : n ≤ r) : PrefixKept n h (setObj h r o) :=
  fun j hj => getObj_set_ne h r j o (by omega)

theorem prefixKept_alloc (n : Nat) (h : Heap) (o : HObj)
    (hn : n ≤ h.length) : PrefixKept n h (alloc h o).1 :=
  fun j hj => getObj_append h [o] j (by omega)

theorem length_setObj (h : Heap) (r : Nat) (o : HObj) :
    (setObj h r o).length = h.length := List.length_set h r o

theorem ctxFields_append_at (h t : Heap) (k : Nat) (reg : Option String)
    (eo co : Option Nat) (hread : getObj t k = .ctx reg eo co) :
    ctxFields (h ++ t) (h.length + k) = (reg, eo, co) := by
  rw [ctxFields, getObj_append_right, hread]

theorem caFields_append_at (h t : Heap) (k : Nat) (co : Option Nat)
    (p g : Option (List Activity)) (hread : getObj t k = .ca co p g) :
    caFields (h ++ t) (h.length + k) = (co, p, g) := by
  rw [caFields, getObj_append_right, hread]

/-- The deep copy leaves every existing reference untouched, returns a
fresh reference, and every reference inside the copied graph is fresh. -/
theorem deepCopyCtx_spec (h : Heap) (r : Nat) :
    PrefixKept h.length h (deepCopyCtx h r).1 ∧
    h.length ≤ (deepCopyCtx h r).2 ∧
    CtxFresh h.length (deepCopyCtx h r).1 (deepCopyCtx h r).2 ∧
    h.length ≤ (deepCopyCtx h r).1.length := by
  unfold deepCopyCtx
  rcases hv1 : (readCtx h r).extensions with _ | l <;>
    rcases hv2 : (readCtx h r).contextActivities with _ | cav
  · simp only [hv1, hv2]
    have hfl := ctxFields_append_at h
      [HObj.ctx (readCtx h r).registration none none] 0 _ _ _ rfl
    rw [Nat.add_zero] at hfl
    refine ⟨fun j hj => getObj_append _ _ j hj, Nat.le_refl _,
      ⟨?_, ?_⟩, by simp⟩
    · intro er her
      rw [hfl] at her
      simp at her
    · intro cr hcr
      rw [hfl] at hcr
      simp at hcr
  · simp only [hv1, hv2]
    rcases hv3 : cav.category with _ | cl <;> simp only [hv3]
    · have hfl := ctxFields_append_at h
        [HObj.ca none cav.parent cav.grouping,
         HObj.ctx (readCtx h r).registration none (some h.length)]
        1 _ _ _ rfl
      have hca := caFields_append_at h
        [HObj.ca none cav.parent cav.grouping,
         HObj.ctx (readCtx h r).registration none (some h.length)]
        0 _ _ _ rfl
      rw [Nat.add_zero] at hca
      refine ⟨fun j hj => getObj_append _ _ j hj, by omega,
        ⟨?_, ?_⟩, by simp⟩
      · intro er her
        rw [hfl] at her
        simp at her
      · intro cr hcr
        rw [hfl] at hcr
        simp at hcr
        subst hcr
        refine ⟨Nat.le_refl _, ?_⟩
        intro ct hct
        rw [hca] at hct
        simp at hct
    · have hfl := ctxFields_append_at h
        [HObj.cat cl, HObj.ca (some h.length) cav.parent cav.grouping,
         HObj.ctx (readCtx h r).registration none (some (h.length + 1))]
        2 _ _ _ rfl
      have hca := caFields_append_at h
        [HObj.cat cl, HObj.ca (some h.length) cav.parent cav.grouping,
         HObj.ctx (readCtx h r).registration none (some (h.length + 1))]
        1 _ _ _ rfl
      refine ⟨fun j hj => getObj_append _ _ j hj, by omega,
        ⟨?_, ?_⟩, by simp⟩
      · intro er her
        rw [hfl] at her
        simp at her
      · intro cr hcr
        rw [hfl] at hcr
        simp at hcr
        subst hcr
        refine ⟨by omega, ?_⟩
        intro ct hct
        rw [hca] at hct
        simp at hct
        omega
  · simp only [hv1, hv2]
    have hfl := ctxFields_append_at h
      [HObj.exts l, HObj.ctx (readCtx h r).registration (some h.length) none]
      1 _ _ _ rfl
    refine ⟨fun j hj => getObj_append _ _ j hj, by omega,
      ⟨?_, ?_⟩, by simp⟩
    · intro er her
      rw [hfl] at her
      simp at her
      omega
    · intro cr hcr
      rw [hfl] at hcr
      simp at hcr
  · simp only [hv1, hv2]
    rcases hv3 : cav.category with _ | cl <;> simp only [hv3]
    · have hfl := ctxFields_append_at h
        [HObj.exts l, HObj.ca none cav.parent cav.grouping,
         HObj.ctx (readCtx h r).registration (some h.length)
           (some (h.length + 1))] 2 _ _ _ rfl
      have hca := caFields_append_at h
        [HObj.exts l, HObj.ca none cav.parent cav.grouping,
         HObj.ctx (readCtx h r).registration (some h.length)
           (some (h.length + 1))] 1 _ _ _ rfl
      refine ⟨fun j hj => getObj_append _ _ j hj, by omega,
        ⟨?_, ?_⟩, by simp⟩
      · intro er her
        rw [hfl] at her
        simp at her
        omega
      · intro cr hcr
        rw [hfl] at hcr
        simp at hcr
        subst hcr
        refine ⟨by omega, ?_⟩
        intro ct hct
        rw [hca] at hct
        simp at hct
    · have hfl := ctxFields_append_at h
        [HObj.exts l, HObj.cat cl,
         HObj.ca (some (h.length + 1)) cav.parent cav.grouping,
         HObj.ctx (readCtx h r).registration (some h.length)
           (some (h.length + 2))] 3 _ _ _ rfl
      have hca := caFields_append_at h
        [HObj.exts l, HObj.cat cl,
         HObj.ca (some (h.length + 1)) cav.parent cav.grouping,
         HObj.ctx (readCtx h r).registration (some h.length)
           (some (h.length + 2))] 2 _ _ _ rfl
      refine ⟨fun j hj => getObj_append _ _ j hj, by omega,
        ⟨?_, ?_⟩, by simp⟩
      · intro er her
        rw [hfl] at her
        simp at her
        omega
      · intro cr hcr
        rw [hfl] at hcr
        simp at hcr
        subst hcr
        refine ⟨by omega, ?_⟩
        intro ct hct
        rw [hca] at hct
        simp at hct
        omega

/-- All references an object stores point at or above `n`. -/
def ObjFresh (n : Nat) : HObj → Prop
  | .ctx _ e c =>
    (∀ er, e = some er → n ≤ er) ∧ (∀ cr, c = some cr → n ≤ cr)
  | .ca c _ _ => ∀ ct, c = some ct → n ≤ ct
  | .exts _ => True
  | .cat _ => True

/-- Every object at or above `n` stores only references at or above `n`:
the objects created during a build never point back into the old heap in
a way the build would write through. -/
def AboveFresh (n : Nat) (h : Heap) : Prop :=
  ∀ r, n ≤ r → ObjFresh n (getObj h r)

theorem objFresh_default (n : Nat) : ObjFresh n (HObj.ctx none none none) := by
  constructor
  · intro er h
    cases h
  · intro cr h
    cases h

theorem aboveFresh_initial (h : Heap) : AboveFresh h.length h := by
  intro r hr
  have : getObj h r = HObj.ctx none none none := by
    simp only [getObj, List.getD_eq_getElem?_getD]
    rw [List.getElem?_eq_none (by omega)]
    rfl
  rw [this]
  exact objFresh_default _

theorem aboveFresh_append (n : Nat) (h t : Heap) (ha : AboveFresh n h)
    (ht : ∀ o ∈ t, ObjFresh n o) : AboveFresh n (h ++ t) := by
  intro r hr
  by_cases hlt : r < h.length
  · rw [getObj_append _ _ _ hlt]
    exact ha r hr
  · by_cases hlt2 : r < h.length + t.length
    · have hk : r - h.length < t.length := by omega
      have h1 : getObj (h ++ t) r = getObj t (r - h.length) := by
        have := getObj_append_right h t (r - h.length)
        rw [show h.length + (r - h.length) = r by omega] at this
        exact this
      have h2 : getObj t (r - h.length) = t.get ⟨r - h.length, hk⟩ := by
        simp [getObj, List.getD_eq_getElem?_getD, List.getElem?_eq_getElem hk]
      rw [h1, h2]
      exact ht _ (List.get_mem t _ hk)
    · have : getObj (h ++ t) r = HObj.ctx none none none := by
        simp only [getObj, List.getD_eq_getElem?_getD]
        rw [List.getElem?_eq_none (by simp; omega)]
        rfl
      rw [this]
      exact objFresh_default _

theorem aboveFresh_alloc (n : Nat) (h : Heap) (o : HObj)
    (ha : AboveFresh n h) (ho : ObjFresh n o) : AboveFresh n (alloc h o).1 := by
  refine aboveFresh_append n h [o] ha ?_
  intro x hx
  simp at hx
  rw [hx]
  exact ho

theorem aboveFresh_set (n : Nat) (h : Heap) (x : Nat) (o : HObj)
    (ha : AboveFresh n h) (ho : ObjFresh n o) :
    AboveFresh n (setObj h x o) := by
  intro r hr
  by_cases hx : x = r
  · subst hx
    rcases getObj_set_cases h x o with hc | hc <;> rw [hc]
    · exact ho
    · exact ha x hr
  · rw [getObj_set_ne _ _ _ _ hx]
    exact ha r hr

theorem ctxFields_fresh (n : Nat) (h : Heap) (r : Nat)
    (ha : AboveFresh n h) (hr : n ≤ r) :
    (∀ er, (ctxFields h r).2.1 = some er → n ≤ er) ∧
    (∀ cr, (ctxFields h r).2.2 = some cr → n ≤ cr) := by
  have hof := ha r hr
  cases hobj : getObj h r with
  | ctx a e c =>
    rw [hobj] at hof
    rw [ctxFields, hobj]
    exact hof
  | exts l => rw [ctxFields, hobj]; simp
  | ca c p g => rw [ctxFields, hobj]; simp
  | cat l => rw [ctxFields, hobj]; simp

theorem caFields_fresh (n : Nat) (h : Heap) (cr : Nat)
    (ha : AboveFresh n h) (hcr : n ≤ cr) :
    ∀ ct, (caFields h cr).1 = some ct → n ≤ ct := by
  have hof := ha cr hcr
  cases hobj : getObj h cr with
  | ctx a e c => rw [caFields, hobj]; simp
  | exts l => rw [caFields, hobj]; simp
  | ca c p g =>
    rw [hobj] at hof
    rw [caFields, hobj]
    exact hof
  | cat l => rw [caFields, hobj]; simp

theorem objFresh_exts (n : Nat) (l : List (String × Option String)) :
    ObjFresh n (HObj.exts l) := trivial

theorem objFresh_cat (n : Nat) (l : List Activity) :
    ObjFresh n (HObj.cat l) := trivial

theorem objFresh_ctx (n : Nat) (reg : Option String) (e c : Option Nat)
    (he : ∀ er, e = some er → n ≤ er) (hc : ∀ cr, c = some cr → n ≤ cr) :
    ObjFresh n (HObj.ctx reg e c) := ⟨he, hc⟩

theorem objFresh_ca (n : Nat) (c : Option Nat)
    (p g : Option (List Activity)) (hc : ∀ ct, c = some ct → n ≤ ct) :
    ObjFresh n (HObj.ca c p g) := hc

theorem objFresh_some (n r : Nat) (hr : n ≤ r) :
    ∀ x, (some r : Option Nat) = some x → n ≤ x := by
  intro x hx
  injection hx with hx
  omega

theorem objFresh_none (n : Nat) :
    ∀ x, (none : Option Nat) = some x → n ≤ x := by
  intro x hx
  cases hx

/-- The deep copy: existing references untouched, the returned reference
fresh, the freshness invariant established, heap only grown. -/
theorem deepCopyCtx_above (h : Heap) (r : Nat) :
    PrefixKept h.length h (deepCopyCtx h r).1 ∧
    h.length ≤ (deepCopyCtx h r).2 ∧
    AboveFresh h.length (deepCopyCtx h r).1 ∧
    h.length ≤ (deepCopyCtx h r).1.length := by
  unfold deepCopyCtx
  rcases hv1 : (readCtx h r).extensions with _ | l <;>
    rcases hv2 : (readCtx h r).contextActivities with _ | cav <;>
    simp only [hv1, hv2]
  · refine ⟨fun j hj => getObj_append _ _ j hj, Nat.le_refl _, ?_, by simp⟩
    refine aboveFresh_append _ _ _ (aboveFresh_initial h) ?_
    intro o ho
    simp at ho
    rw [ho]
    exact objFresh_default _
  · rcases hv3 : cav.category with _ | cl <;> simp only [hv3]
    · refine ⟨fun j hj => getObj_append _ _ j hj, by omega, ?_, by simp⟩
      refine aboveFresh_append _ _ _ (aboveFresh_initial h) ?_
      intro o ho
      simp at ho
      rcases ho with rfl | rfl
      · exact objFresh_ca _ _ _ _ (objFresh_none _)
      · exact objFresh_ctx _ _ _ _ (objFresh_none _)
          (objFresh_some _ _ (Nat.le_refl _))
    · refine ⟨fun j hj => getObj_append _ _ j hj, by omega, ?_, by simp⟩
      refine aboveFresh_append _ _ _ (aboveFresh_initial h) ?_
      intro o ho
      simp at ho
      rcases ho with rfl | rfl | rfl
      · exact objFresh_cat _ _
      · exact objFresh_ca _ _ _ _ (objFresh_some _ _ (Nat.le_refl _))
      · exact objFresh_ctx _ _ _ _ (objFresh_none _)
          (objFresh_some _ _ (by omega))
  · refine ⟨fun j hj => getObj_append _ _ j hj, by omega, ?_, by simp⟩
    refine aboveFresh_append _ _ _ (aboveFresh_initial h) ?_
    intro o ho
    simp at ho
    rcases ho with rfl | rfl
    · exact objFresh_exts _ _
    · exact objFresh_ctx _ _ _ _ (objFresh_some _ _ (Nat.le_refl _))
        (objFresh_none _)
  · rcases hv3 : cav.category with _ | cl <;> simp only [hv3]
    · refine ⟨fun j hj => getObj_append _ _ j hj, by omega, ?_, by simp⟩
      refine aboveFresh_append _ _ _ (aboveFresh_initial h) ?_
      intro o ho
      simp at ho
      rcases ho with rfl | rfl | rfl
      · exact objFresh_exts _ _
      · exact objFresh_ca _ _ _ _ (objFresh_none _)
      · exact objFresh_ctx _ _ _ _ (objFresh_some _ _ (Nat.le_refl _))
          (objFresh_some _ _ (by omega))
    · refine ⟨fun j hj => getObj_append _ _ j hj, by omega, ?_, by simp⟩
      refine aboveFresh_append _ _ _ (aboveFresh_initial h) ?_
      intro o ho
      simp at ho
      rcases ho with rfl | rfl | rfl | rfl
      · exact objFresh_exts _ _
      · exact objFresh_cat _ _
      · exact objFresh_ca _ _ _ _ (objFresh_some _ _ (by omega))
      · exact objFresh_ctx _ _ _ _ (objFresh_some _ _ (Nat.le_refl _))
          (objFresh_some _ _ (by omega))

theorem setCtxRegistration_frame (n : Nat) (h : Heap) (r : Nat)
    (reg : Option String) (hr : n ≤ r) (ha : AboveFresh n h) :
    PrefixKept n h (setCtxRegistration reg h r) ∧
    AboveFresh n (setCtxRegistration reg h r) ∧
    (setCtxRegistration reg h r).length = h.length := by
  refine ⟨prefixKept_set _ _ _ _ hr, ?_, length_setObj _ _ _⟩
  have hf := ctxFields_fresh n h r ha hr
  exact aboveFresh_set _ _ _ _ ha (objFresh_ctx _ _ _ _ hf.1 hf.2)

theorem ensureExtensions_frame (n : Nat) (h : Heap) (r : Nat)
    (hr : n ≤ r) (hn : n ≤ h.length) (ha : AboveFresh n h) :
    PrefixKept n h (ensureExtensions h r).1 ∧
    AboveFresh n (ensureExtensions h r).1 ∧
    n ≤ (ensureExtensions h r).2 ∧
    h.length ≤ (ensureExtensions h r).1.length := by
  unfold ensureExtensions
  cases hf : (ctxFields h r).2.1 with
  | some er =>
    exact ⟨prefixKept_refl _ _, ha, (ctxFields_fresh n h r ha hr).1 er hf,
      Nat.le_refl _⟩
  | none =>
    have hstep1 : AboveFresh n (alloc h (HObj.exts [])).1 :=
      aboveFresh_alloc _ _ _ ha (objFresh_exts _ _)
    have hfields := ctxFields_fresh n (alloc h (HObj.exts [])).1 r hstep1 hr
    refine ⟨?_, ?_, ?_, ?_⟩
    · exact prefixKept_trans (prefixKept_alloc n h _ hn)
        (prefixKept_set _ _ _ _ hr)
    · exact aboveFresh_set _ _ _ _ hstep1
        (objFresh_ctx _ _ _ _ (objFresh_some _ _ hn) hfields.2)
    · exact hn
    · rw [length_setObj]
      simp [alloc]

theorem ensureContextActivities_frame (n : Nat) (h : Heap) (r : Nat)
    (hr : n ≤ r) (hn : n ≤ h.length) (ha : AboveFresh n h) :
    PrefixKept n h (ensureContextActivities h r).1 ∧
    AboveFresh n (ensureContextActivities h r).1 ∧
    n ≤ (ensureContextActivities h r).2 ∧
    h.length ≤ (ensureContextActivities h r).1.length := by
  unfold ensureContextActivities
  cases hf : (ctxFields h r).2.2 with
  | some cr =>
    exact ⟨prefixKept_refl _ _, ha, (ctxFields_fresh n h r ha hr).2 cr hf,
      Nat.le_refl _⟩
  | none =>
    have hstep1 : AboveFresh n (alloc h (HObj.ca none none none)).1 :=
      aboveFresh_alloc _ _ _ ha (objFresh_ca _ _ _ _ (objFresh_none _))
    have hfields := ctxFields_fresh n (alloc h (HObj.ca none none none)).1 r
      hstep1 hr
    refine ⟨?_, ?_, ?_, ?_⟩
    · exact prefixKept_trans (prefixKept_alloc n h _ hn)
        (prefixKept_set _ _ _ _ hr)
    · exact aboveFresh_set _ _ _ _ hstep1
        (objFresh_ctx _ _ _ _ hfields.1 (objFresh_some _ _ hn))
    · exact hn
    · rw [length_setObj]
      simp [alloc]

theorem ensureCategory_frame (n : Nat) (h : Heap) (cr : Nat)
    (hcr : n ≤ cr) (hn : n ≤ h.length) (ha : AboveFresh n h) :
    PrefixKept n h (ensureCategory h cr).1 ∧
    AboveFresh n (ensureCategory h cr).1 ∧
    n ≤ (ensureCategory h cr).2 ∧
    h.length ≤ (ensureCategory h cr).1.length := by
  unfold ensureCategory
  cases hf : (caFields h cr).1 with
  | some ct =>
    exact ⟨prefixKept_refl _ _, ha, caFields_fresh n h cr ha hcr ct hf,
      Nat.le_refl _⟩
  | none =>
    have hstep1 : AboveFresh n (alloc h (HObj.cat [])).1 :=
      aboveFresh_alloc _ _ _ ha (objFresh_cat _ _)
    have hca : ∀ x, (caFields (alloc h (HObj.cat [])).1 cr).1 = some x →
        n ≤ x := caFields_fresh n _ cr hstep1 hcr
    refine ⟨?_, ?_, ?_, ?_⟩
    · exact prefixKept_trans (prefixKept_alloc n h _ hn)
        (prefixKept_set _ _ _ _ hcr)
    · exact aboveFresh_set _ _ _ _ hstep1
        (objFresh_ca _ _ _ _ (objFresh_some _ _ hn))
    · exact hn
    · rw [length_setObj]
      simp [alloc]

theorem buildTail_frame (n : Nat) (verbId : String)
    (reg sid : Option String) (h0 : Heap) (r0 : Nat)
    (hr : n ≤ r0) (hn : n ≤ h0.length) (ha : AboveFresh n h0) :
    PrefixKept n h0 (buildTail verbId reg sid h0 r0) ∧
    h0.length ≤ (buildTail verbId reg sid h0 r0).length := by
  unfold buildTail
  dsimp only
  set h1 := setCtxRegistration reg h0 r0 with hd1
  set e := ensureExtensions h1 r0 with hd2
  set h2 := setSessionExt sid e.1 e.2 with hd3
  set ca := ensureContextActivities h2 r0 with hd4
  set ct := ensureCategory ca.1 ca.2 with hd5
  obtain ⟨k1, a1, l1⟩ := setCtxRegistration_frame n h0 r0 reg hr ha
  rw [← hd1] at k1 a1 l1
  obtain ⟨k2, a2, e2, l2⟩ := ensureExtensions_frame n h1 r0 hr
    (by rw [l1]; exact hn) a1
  rw [← hd2] at k2 a2 e2 l2
  have k3 : PrefixKept n e.1 h2 := by
    rw [hd3]
    exact prefixKept_set _ _ _ _ e2
  have a3 : AboveFresh n h2 := by
    rw [hd3]
    exact aboveFresh_set _ _ _ _ a2 (objFresh_exts _ _)
  have l3 : h2.length = e.1.length := by
    rw [hd3]
    exact length_setObj _ _ _
  obtain ⟨k4, a4, c4, l4⟩ := ensureContextActivities_frame n h2 r0 hr
    (by omega) a3
  rw [← hd4] at k4 a4 c4 l4
  obtain ⟨k5, a5, c5, l5⟩ := ensureCategory_frame n ca.1 ca.2 c4
    (by omega) a4
  rw [← hd5] at k5 a5 c5 l5
  have k6 : PrefixKept n ct.1 (pushCategories verbId ct.1 ct.2) := by
    unfold pushCategories
    exact prefixKept_trans (prefixKept_set _ _ _ _ c5)
      (prefixKept_set _ _ _ _ c5)
  have l6 : (pushCategories verbId ct.1 ct.2).length = ct.1.length := by
    unfold pushCategories
    rw [length_setObj, length_setObj]
  refine ⟨prefixKept_trans k1 (prefixKept_trans k2 (prefixKept_trans k3
    (prefixKept_trans k4 (prefixKept_trans k5 k6)))), by omega⟩

theorem buildStatementCtxH_frame (verbId : String) (reg sid : Option String)
    (templateRef : Option Nat) (h : Heap) :
    PrefixKept h.length h (buildStatementCtxH verbId reg sid templateRef h).1 ∧
    h.length ≤ (buildStatementCtxH verbId reg sid templateRef h).1.length := by
  unfold buildStatementCtxH
  dsimp only
  set c := (match templateRef with
    | some r => deepCopyCtx h r
    | none => alloc h (HObj.ctx none none none)) with hdc
  have hcopy : PrefixKept h.length h c.1 ∧ h.length ≤ c.2 ∧
      AboveFresh h.length c.1 ∧ h.length ≤ c.1.length := by
    rw [hdc]
    cases templateRef with
    | some tr => exact deepCopyCtx_above h tr
    | none =>
      refine ⟨prefixKept_alloc _ _ _ (Nat.le_refl _), Nat.le_refl _, ?_,
        by simp [alloc]⟩
      exact aboveFresh_alloc _ _ _ (aboveFresh_initial h) (objFresh_default _)
  obtain ⟨hk0, hr0, ha0, hl0⟩ := hcopy
  obtain ⟨hkT, hlT⟩ := buildTail_frame h.length verbId reg sid c.1 c.2 hr0
    hl0 ha0
  exact ⟨prefixKept_trans hk0 hkT, le_trans hl0 hlT⟩

theorem buildAllowedCtxH_frame (reg sid : Option String)
    (templateRef : Option Nat) (h : Heap) :
    PrefixKept h.length h (buildAllowedCtxH reg sid templateRef h).1 ∧
    h.length ≤ (buildAllowedCtxH reg sid templateRef h).1.length := by
  unfold buildAllowedCtxH
  dsimp only
  set a1 := alloc h (HObj.exts [(SESSIONID_EXT, sid)]) with hda1
  set a2 := alloc a1.1 (HObj.ctx reg (some a1.2) none) with hda2
  have hl1 : a1.1.length = h.length + 1 := by rw [hda1]; simp [alloc]
  have hl2 : a2.1.length = h.length + 2 := by rw [hda2]; simp [alloc, hl1]
  have hr2 : a2.2 = h.length + 1 := by rw [hda2]; simp [alloc, hl1]
  have k1 : PrefixKept h.length h a1.1 := by
    rw [hda1]
    exact prefixKept_alloc _ _ _ (Nat.le_refl _)
  have k2 : PrefixKept h.length h a2.1 := by
    rw [hda2]
    exact prefixKept_trans k1 (prefixKept_alloc _ _ _ (by omega))
  cases templateRef with
  | none =>
    dsimp only
    exact ⟨k2, by omega⟩
  | some tr =>
    dsimp only
    set a3 := alloc a2.1 (HObj.ca none none none) with hda3
    have hl3 : a3.1.length = h.length + 3 := by rw [hda3]; simp [alloc, hl2]
    have hr3 : a3.2 = h.length + 2 := by rw [hda3]; simp [alloc, hl2]
    have k3 : PrefixKept h.length h a3.1 := by
      rw [hda3]
      exact prefixKept_trans k2 (prefixKept_alloc _ _ _ (by omega))
    set h3 := setObj a3.1 a2.2 (HObj.ctx reg (some a1.2) (some a3.2))
      with hdh3
    have k4 : PrefixKept h.length h h3 := by
      rw [hdh3]
      exact prefixKept_trans k3 (prefixKept_set _ _ _ _ (by omega))
    have hlh3 : h3.length = h.length + 3 := by
      rw [hdh3, length_setObj, hl3]
    cases hfld : (ctxFields h3 tr).2.2 with
    | none =>
      dsimp only
      exact ⟨k4, by omega⟩
    | some tcr =>
      dsimp only
      refine ⟨prefixKept_trans k4 (prefixKept_set _ _ _ _ (by omega)), ?_⟩
      rw [length_setObj]
      omega

theorem runBuilds_frame (templateRef : Option Nat) (ops : List BuildOp)
    (h : Heap) :
    PrefixKept h.length h (runBuilds templateRef ops h) ∧
    h.length ≤ (runBuilds templateRef ops h).length := by
  induction ops generalizing h with
  | nil => exact ⟨prefixKept_refl _ _, Nat.le_refl _⟩
  | cons op ops ih =>
    cases op with
    | lifecycle v reg sid =>
      obtain ⟨k1, l1⟩ := buildStatementCtxH_frame v reg sid templateRef h
      obtain ⟨k2, l2⟩ := ih (buildStatementCtxH v reg sid templateRef h).1
      exact ⟨prefixKept_trans k1 (prefixKept_mono l1 k2), le_trans l1 l2⟩
    | allowed reg sid =>
      obtain ⟨k1, l1⟩ := buildAllowedCtxH_frame reg sid templateRef h
      obtain ⟨k2, l2⟩ := ih (buildAllowedCtxH reg sid templateRef h).1
      exact ⟨prefixKept_trans k1 (prefixKept_mono l1 k2), le_trans l1 l2⟩

/-- The cached template lives entirely inside the heap: its own reference
and every reference stored in it are in bounds. -/
def TemplateInHeap (h : Heap) (r : Nat) : Prop :=
  r < h.length ∧
  (∀ er, (ctxFields h r).2.1 = some er → er < h.length) ∧
  (∀ cr, (ctxFields h r).2.2 = some cr → cr < h.length ∧
    ∀ ct, (caFields h cr).1 = some ct → ct < h.length)

theorem readCtx_prefixKept (h h' : Heap) (r : Nat)
    (ht : TemplateInHeap h r) (hk : PrefixKept h.length h h') :
    readCtx h' r = readCtx h r := by
  obtain ⟨hr, he, hca⟩ := ht
  have hobj : getObj h' r = getObj h r := hk r hr
  unfold readCtx
  rw [hobj]
  cases hctx : getObj h r with
  | exts l => rfl
  | ca c p g => rfl
  | cat l => rfl
  | ctx reg eRef caRef =>
    have hflds : ctxFields h r = (reg, eRef, caRef) := by
      unfold ctxFields
      rw [hctx]
    dsimp only
    congr 1
    · cases eRef with
      | none => rfl
      | some er =>
        have her : er < h.length := he er (by rw [hflds])
        have heq : extsEntries h' er = extsEntries h er := by
          unfold extsEntries
          rw [hk er her]
        simp [heq]
    · cases caRef with
      | none => rfl
      | some cr =>
        obtain ⟨hcr, hct⟩ := hca cr (by rw [hflds])
        have hcafe : caFields h' cr = caFields h cr := by
          unfold caFields
          rw [hk cr hcr]
        have hcatEq : Option.map (catEntries h') (caFields h cr).1 =
            Option.map (catEntries h) (caFields h cr).1 := by
          cases hcat : (caFields h cr).1 with
          | none => rfl
          | some ct =>
            have hlt : ct < h.length := hct ct hcat
            have : catEntries h' ct = catEntries h ct := by
              unfold catEntries
              rw [hk ct hlt]
            simp [this]
        simp [hcafe, hcatEq]

/-- C10: building statements never mutates the cached context template.
`buildStatement` (cmi5-wrapper.js lines 578-650) works on a JSON deep copy
of `contextTemplate`, and the public `sendStatement` (lines 1099-1145)
only reads the template's parent/grouping fields into fresh objects; so
after any sequence of lifecycle or allowed statement builds, the value
stored at the template reference is unchanged. -/
theorem build_no_template_mutation (h : Heap) (tr : Nat)
    (ops : List BuildOp) (ht : TemplateInHeap h tr) :
    readCtx (runBuilds (some tr) ops h) tr = readCtx h tr := by
  obtain ⟨hk, _⟩ := runBuilds_frame (some tr) ops h
  exact readCtx_prefixKept h _ tr ht hk

def sampleTemplateHeap : Heap :=
  [.exts [("https://example.org/ext", some "v")],
   .cat [sampleParent],
   .ca (some 1) (some [sampleParent]) none,
   .ctx (some "reg-1") (some 0) (some 2)]

def sampleBuilds : List BuildOp :=
  [.lifecycle VERB_PASSED (some "reg-1") (some "sess-1"),
   .allowed (some "reg-1") (some "sess-1"),
   .lifecycle VERB_TERMINATED (some "reg-1") (some "sess-1")]

/-- C10 witness: a concrete template heap (context with extensions and a
contextActivities object holding a category array) survives a
passed-allowed-terminated build sequence unchanged. -/
theorem build_no_template_mutation_witness :
    TemplateInHeap sampleTemplateHeap 3 ∧
    readCtx (runBuilds (some 3) sampleBuilds sampleTemplateHeap) 3 =
      readCtx sampleTemplateHeap 3 := by
  have h31 : (ctxFields sampleTemplateHeap 3).2.1 = some 0 := by rfl
  have h32 : (ctxFields sampleTemplateHeap 3).2.2 = some 2 := by rfl
  have h21 : (caFields sampleTemplateHeap 2).1 = some 1 := by rfl
  have ht : TemplateInHeap sampleTemplateHeap 3 := by
    refine ⟨by decide, ?_, ?_⟩
    · intro er hE
      rw [h31] at hE
      obtain rfl : (0 : Nat) = er := by injection hE
      decide
    · intro cr hC
      rw [h32] at hC
      obtain rfl : (2 : Nat) = cr := by injection hC
      refine ⟨by decide, ?_⟩
      intro ct hT
      rw [h21] at hT
      obtain rfl : (1 : Nat) = ct := by injection hT
      decide
  exact ⟨ht, build_no_template_mutation sampleTemplateHeap 3 sampleBuilds ht⟩

/-- C9 witness: concrete success and failure of the terminated send. -/
theorem sendTerminated_atomic_witness :
    sendTerminated .ok "id-t" pageLoadState (some sampleStored) =
      { result := .ok (some "id-t"),
        state := { pageLoadState with terminated := true }, storage := none,
        attempted := [VERB_TERMINATED], delivered := [VERB_TERMINATED],
        built := 1 } ∧
    sendTerminated (.err "HTTP 500") "id-t" pageLoadState (some sampleStored) =
      { result := .error "HTTP 500", state := pageLoadState,
        storage := some sampleStored, attempted := [VERB_TERMINATED],
        delivered := [], built := 1 } := by
  have h := sendTerminated_atomic pageLoadState (some sampleStored) "id-t" rfl
  exact ⟨h.1, h.2 "HTTP 500"⟩

end Cmi5W

namespace XapiTracker

/-- A `processBatch` coroutine's suspension point. `waitingOn t` is a call
suspended at `await batchPromise` (xapi-tracker.js line 1520), where `t` is
the promise the module variable held when the await ran; `delivering ps` is
a call suspended at `await Cmi5.sendStatement` inside the delivery loop
(line 1540) with `ps` still to send; `done` is a settled call. -/
inductive Co where
  | waitingOn (target : Option Nat)
  | delivering (pending : List Stmt)
  | done
deriving Repr, DecidableEq

/-- The module state of xapi-tracker.js relevant to flush serialization:
the queue, `sessionEnded`, `batchInProgress` (`bip`), `batchPromise`
(`promiseRef`, indexing the `processBatch` call whose promise it holds —
`none` is the initial `null`, line 48), and the coroutines of all
`processBatch` calls so far, in call order. -/
structure Sys where
  queue : List Stmt
  sessionEnded : Bool
  bip : Bool
  promiseRef : Option Nat
  cos : List Co
deriving Repr, DecidableEq

def getCo (cs : List Co) (i : Nat) : Co := cs.getD i .done

/-- Whether `await batchPromise` resumes without an intervening event:
true when `batchPromise` is `null` (the await is skipped, line 1519) or
holds an already-settled promise (the continuation is a microtask, which
runs before any further macrotask). -/
def isSettled (cs : List Co) : Option Nat → Bool
  | none => true
  | some i => getCo cs i == Co.done

/-- `batchInProgress = true` and the body of the try (lines 1526-1589),
entered by call `n`: with a connection and no termination the queue is
drained and the call suspends at the first send; every other branch runs
synchronously and the `finally` resets `batchInProgress`. -/
def startLoop (connected terminated : Bool) (n : Nat) (sys : Sys) : Sys :=
  if connected && !terminated then
    if sys.queue.isEmpty then
      { sys with bip := false, cos := sys.cos.set n .done }
    else
      { sys with bip := true, queue := [], cos := sys.cos.set n (.delivering sys.queue) }
  else if terminated then
    { sys with
      sessionEnded := true, queue := [], bip := false,
      cos := sys.cos.set n .done }
  else if sys.queue.length > 100 then
    { sys with
      queue := sys.queue.drop (sys.queue.length - 100),
      bip := false, cos := sys.cos.set n .done }
  else
    { sys with bip := false, cos := sys.cos.set n .done }

/-- The synchronous prefix of `processBatch` (lines 1503-1526) run by call
`n`, plus — when the awaited `batchPromise` is already settled — the
microtask continuation through the recheck (line 1523), which runs before
any other event can intervene. -/
def callBody (connected terminated : Bool) (n : Nat) (sys : Sys) : Sys :=
  if sys.sessionEnded then
    { sys with queue := [], cos := sys.cos.set n .done }
  else if sys.queue.isEmpty then
    { sys with cos := sys.cos.set n .done }
  else if !SEND_TO_LRS then
    { sys with queue := [], cos := sys.cos.set n .done }
  else if sys.bip then
    if isSettled sys.cos sys.promiseRef then
      if sys.queue.isEmpty || sys.sessionEnded then
        { sys with cos := sys.cos.set n .done }
      else startLoop connected terminated n sys
    else
      { sys with cos := sys.cos.set n (.waitingOn sys.promiseRef) }
  else startLoop connected terminated n sys

/-- A call site `batchPromise = processBatch()` (lines 198, 1704, 1856,
1895): the new coroutine runs its synchronous prefix, then the module
variable is repointed at this call's promise — in particular the prefix's
own `await batchPromise` read the previous value. -/
def call (connected terminated : Bool) (sys : Sys) : Sys :=
  let n := sys.cos.length
  let s1 := callBody connected terminated n { sys with cos := sys.cos ++ [Co.done] }
  { s1 with promiseRef := some n }

/-- The waiter of a settled promise resumes: the recheck of line 1523, then
the rest of the body. -/
def resumeWaiter (connected terminated : Bool) (j : Nat) (sys : Sys) : Sys :=
  if sys.queue.isEmpty || sys.sessionEnded then
    { sys with cos := sys.cos.set j .done }
  else startLoop connected terminated j sys

/-- A coroutine `i` has just settled: its promise resolves, resuming the
(at most one) call suspended on it; if that call also completes
synchronously the cascade continues, all within the same event turn. -/
def finishCascade (connected terminated : Bool) : Nat → Nat → Sys → Sys
  | 0, _, sys => sys
  | fuel + 1, i, sys =>
    match sys.cos.findIdx? (fun c => c == Co.waitingOn (some i)) with
    | none => sys
    | some j =>
      let s2 := resumeWaiter connected terminated j sys
      if getCo s2.cos j == Co.done then
        finishCascade connected terminated fuel j s2
      else s2

/-- The pending `Cmi5.sendStatement` of delivering coroutine `i` resolves
successfully: the loop advances, and when the batch is exhausted the
`finally` clears `batchInProgress`, the call settles and its waiter (if
any) resumes. -/
def netOk (connected terminated : Bool) (i : Nat) (sys : Sys) : Sys :=
  match getCo sys.cos i with
  | .delivering (_ :: rest) =>
    if rest.isEmpty then
      finishCascade connected terminated sys.cos.length i
        { sys with bip := false, cos := sys.cos.set i .done }
    else { sys with cos := sys.cos.set i (.delivering rest) }
  | _ => sys

/-- `sendStatement`'s enqueue (line 1462), dropped once the session ended. -/
def enqEv (s : Stmt) (sys : Sys) : Sys :=
  if sys.sessionEnded then sys
  else { sys with queue := sys.queue ++ [s] }

/-- An event-loop turn touching the tracker: an enqueue, a flush call, or
the resolution of coroutine `i`'s pending send. -/
inductive Ev where
  | enq (s : Stmt)
  | call
  | net (i : Nat)

def stepEv (connected terminated : Bool) : Ev → Sys → Sys
  | .enq s, sys => enqEv s sys
  | .call, sys => call connected terminated sys
  | .net i, sys => netOk connected terminated i sys

def runEvents (connected terminated : Bool) : List Ev → Sys → Sys
  | [], sys => sys
  | e :: es, sys => runEvents connected terminated es (stepEv connected terminated e sys)

def initSys : Sys := ⟨[], false, false, none, []⟩

/-- How many calls are suspended inside the delivery loop. -/
def deliveringCount (sys : Sys) : Nat :=
  sys.cos.countP (fun c => match c with | .delivering _ => true | _ => false)

/-- C5: refuted as stated. The `batchInProgress`/`batchPromise` handshake
does not serialize flushes: every call site reassigns `batchPromise`, so a
call that returns synchronously on an empty queue leaves `batchPromise`
pointing at an already-settled promise; the next call made while a batch
is still in flight awaits that stale promise, resumes at once, passes the
recheck and starts a second delivery loop. Concretely, from the initial
state the turn sequence [enqueue 1, flush, flush, enqueue 2, flush] — with
a connection, no termination, and the first flush's send still pending —
ends with coroutine 0 delivering statement 1 and coroutine 2 delivering
statement 2 simultaneously: two delivery loops in flight, where the claim
says a second concurrent delivery loop is never started. -/
theorem two_delivery_loops_reachable :
    deliveringCount (runEvents true false
      [.enq 1, .call, .call, .enq 2, .call] initSys) = 2 ∧
    (runEvents true false [.enq 1, .call, .call, .enq 2, .call] initSys).cos =
      [.delivering [1], .done, .delivering [2]] := by
  decide

end XapiTracker
